import Mathlib

/-!
# Address derivation of `interop/account.go`

`account.go` turns one secp256k1 public key into five address strings (P2PK, P2PKH, P2WPKH,
P2TR, Ethereum).  The file contains no cryptography of its own: every step calls into the
packages it imports (`btcec`, `btcutil`, `txscript`, `chaincfg`, `x/crypto/sha3`,
`encoding/hex`).

The development has three layers.

* The imported packages are modelled as executable functions at the level of their mathematical
  definition: SHA-256, RIPEMD-160, legacy Keccak-256, base58check, bech32 / bech32m, point
  parsing and serialisation on secp256k1, and the BIP-341 output-key tweak.
* `Lib` is the interface of exactly the calls `account.go` makes; `btcd` is the instance built
  from the models above.  The methods of `Account` are embedded over an arbitrary `Lib`, so
  that statements about control flow hold for any behaviour of the callees.
* The theorems settle the claims about `GenerateAddresses` and the five derivations.

Go values are embedded as follows.  `[]byte` is `List Byte`; `string` is `String` (addresses and
human-readable parts are ASCII); an `error` is its message; a method on `*Account` maps the
account before the call to an `Outcome`: the account after the call, with the error message if
one was returned, or `crash` when the call would dereference a nil pointer or slice out of
range.  `*chaincfg.Params` is taken to be non-nil.
-/

namespace Interop

/-! ## Bytes and words -/

abbrev Byte := Fin 256

def byteOf (n : Nat) : Byte := ⟨n % 256, Nat.mod_lt _ (by decide)⟩

/-- Big-endian encoding of the low `len` bytes of `v`. -/
def beBytes : Nat → Nat → List Byte
  | 0, _ => []
  | len + 1, v => byteOf (v / 256 ^ len) :: beBytes len v

/-- Little-endian encoding of the low `len` bytes of `v`. -/
def leBytes : Nat → Nat → List Byte
  | 0, _ => []
  | len + 1, v => byteOf v :: leBytes len (v / 256)

def beNat (bs : List Byte) : Nat := bs.foldl (fun acc b => acc * 256 + b.val) 0

def leNat (bs : List Byte) : Nat := bs.foldr (fun b acc => b.val + 256 * acc) 0

/-- The first `k` consecutive blocks of `n` elements of `l`. -/
def chunks {α : Type} (n : Nat) : Nat → List α → List (List α)
  | 0, _ => []
  | k + 1, l => l.take n :: chunks n k (l.drop n)

def asciiBytes (s : String) : List Byte := s.data.map fun c => byteOf c.toNat

def hexDigit (n : Nat) : Char := "0123456789abcdef".data.getD n '0'

/-- Modelled from the spec: `hex.EncodeToString` of `encoding/hex` (imported, not in the
repository): the lowercase hexadecimal rendering of a byte string. -/
def hexEncode (bs : List Byte) : String :=
  String.mk (bs.flatMap fun b => [hexDigit (b.val / 16), hexDigit (b.val % 16)])

def add32 (a b : Nat) : Nat := (a + b) % 2 ^ 32

def rotr32 (x n : Nat) : Nat := ((x >>> n) ||| (x <<< (32 - n))) % 2 ^ 32

def rotl32 (x n : Nat) : Nat := ((x <<< n) ||| (x >>> (32 - n))) % 2 ^ 32

def not32 (x : Nat) : Nat := 2 ^ 32 - 1 - x % 2 ^ 32

def rotl64 (x n : Nat) : Nat := ((x <<< n) ||| (x >>> (64 - n))) % 2 ^ 64

def not64 (x : Nat) : Nat := 2 ^ 64 - 1 - x % 2 ^ 64

deriving instance DecidableEq for Except

/-! ## SHA-256 (FIPS 180-4), as `crypto/sha256` -/

def sha256K : List Nat := [
  0x428a2f98, 0x71374491, 0xb5c0fbcf, 0xe9b5dba5, 0x3956c25b, 0x59f111f1, 0x923f82a4, 0xab1c5ed5,
  0xd807aa98, 0x12835b01, 0x243185be, 0x550c7dc3, 0x72be5d74, 0x80deb1fe, 0x9bdc06a7, 0xc19bf174,
  0xe49b69c1, 0xefbe4786, 0x0fc19dc6, 0x240ca1cc, 0x2de92c6f, 0x4a7484aa, 0x5cb0a9dc, 0x76f988da,
  0x983e5152, 0xa831c66d, 0xb00327c8, 0xbf597fc7, 0xc6e00bf3, 0xd5a79147, 0x06ca6351, 0x14292967,
  0x27b70a85, 0x2e1b2138, 0x4d2c6dfc, 0x53380d13, 0x650a7354, 0x766a0abb, 0x81c2c92e, 0x92722c85,
  0xa2bfe8a1, 0xa81a664b, 0xc24b8b70, 0xc76c51a3, 0xd192e819, 0xd6990624, 0xf40e3585, 0x106aa070,
  0x19a4c116, 0x1e376c08, 0x2748774c, 0x34b0bcb5, 0x391c0cb3, 0x4ed8aa4a, 0x5b9cca4f, 0x682e6ff3,
  0x748f82ee, 0x78a5636f, 0x84c87814, 0x8cc70208, 0x90befffa, 0xa4506ceb, 0xbef9a3f7, 0xc67178f2]

structure Sha256State where
  a : Nat
  b : Nat
  c : Nat
  d : Nat
  e : Nat
  f : Nat
  g : Nat
  h : Nat

def sha256Init : Sha256State :=
  ⟨0x6a09e667, 0xbb67ae85, 0x3c6ef372, 0xa54ff53a, 0x510e527f, 0x9b05688c, 0x1f83d9ab, 0x5be0cd19⟩

def sha256Pad (msg : List Byte) : List Byte :=
  msg ++ [byteOf 0x80] ++ List.replicate ((119 - msg.length % 64) % 64) (byteOf 0)
    ++ beBytes 8 (8 * msg.length)

def sha256Extend : Nat → List Nat → List Nat
  | 0, w => w
  | k + 1, w =>
    let i := w.length
    let w15 := w.getD (i - 15) 0
    let w2 := w.getD (i - 2) 0
    let s0 := rotr32 w15 7 ^^^ rotr32 w15 18 ^^^ (w15 >>> 3)
    let s1 := rotr32 w2 17 ^^^ rotr32 w2 19 ^^^ (w2 >>> 10)
    sha256Extend k (w ++ [add32 (add32 (w.getD (i - 16) 0) s0) (add32 (w.getD (i - 7) 0) s1)])

def sha256Round (s : Sha256State) (kw : Nat × Nat) : Sha256State :=
  let s1 := rotr32 s.e 6 ^^^ rotr32 s.e 11 ^^^ rotr32 s.e 25
  let ch := (s.e &&& s.f) ^^^ (not32 s.e &&& s.g)
  let t1 := add32 (add32 (add32 s.h s1) (add32 ch kw.1)) kw.2
  let s0 := rotr32 s.a 2 ^^^ rotr32 s.a 13 ^^^ rotr32 s.a 22
  let maj := (s.a &&& s.b) ^^^ (s.a &&& s.c) ^^^ (s.b &&& s.c)
  let t2 := add32 s0 maj
  ⟨add32 t1 t2, s.a, s.b, s.c, add32 s.d t1, s.e, s.f, s.g⟩

def sha256Block (s : Sha256State) (block : List Byte) : Sha256State :=
  let w := sha256Extend 48 ((chunks 4 16 block).map beNat)
  let t := (sha256K.zip w).foldl sha256Round s
  ⟨add32 s.a t.a, add32 s.b t.b, add32 s.c t.c, add32 s.d t.d,
   add32 s.e t.e, add32 s.f t.f, add32 s.g t.g, add32 s.h t.h⟩

/-- Modelled from the spec: the digest of `crypto/sha256` (imported, not in the repository),
the SHA-256 that the glossary names as the first half of hash160. -/
def sha256 (msg : List Byte) : List Byte :=
  let p := sha256Pad msg
  let s := (chunks 64 (p.length / 64) p).foldl sha256Block sha256Init
  beBytes 4 s.a ++ beBytes 4 s.b ++ beBytes 4 s.c ++ beBytes 4 s.d
    ++ beBytes 4 s.e ++ beBytes 4 s.f ++ beBytes 4 s.g ++ beBytes 4 s.h


/-! ## RIPEMD-160, as `x/crypto/ripemd160` -/

structure Ripemd160State where
  h0 : Nat
  h1 : Nat
  h2 : Nat
  h3 : Nat
  h4 : Nat

def ripemd160Init : Ripemd160State :=
  ⟨0x67452301, 0xEFCDAB89, 0x98BADCFE, 0x10325476, 0xC3D2E1F0⟩

def ripemd160RL : List Nat := [
  0, 1, 2, 3, 4, 5, 6, 7, 8, 9, 10, 11, 12, 13, 14, 15,
  7, 4, 13, 1, 10, 6, 15, 3, 12, 0, 9, 5, 2, 14, 11, 8,
  3, 10, 14, 4, 9, 15, 8, 1, 2, 7, 0, 6, 13, 11, 5, 12,
  1, 9, 11, 10, 0, 8, 12, 4, 13, 3, 7, 15, 14, 5, 6, 2,
  4, 0, 5, 9, 7, 12, 2, 10, 14, 1, 3, 8, 11, 6, 15, 13]

def ripemd160RR : List Nat := [
  5, 14, 7, 0, 9, 2, 11, 4, 13, 6, 15, 8, 1, 10, 3, 12,
  6, 11, 3, 7, 0, 13, 5, 10, 14, 15, 8, 12, 4, 9, 1, 2,
  15, 5, 1, 3, 7, 14, 6, 9, 11, 8, 12, 2, 10, 0, 4, 13,
  8, 6, 4, 1, 3, 11, 15, 0, 5, 12, 2, 13, 9, 7, 10, 14,
  12, 15, 10, 4, 1, 5, 8, 7, 6, 2, 13, 14, 0, 3, 9, 11]

def ripemd160SL : List Nat := [
  11, 14, 15, 12, 5, 8, 7, 9, 11, 13, 14, 15, 6, 7, 9, 8,
  7, 6, 8, 13, 11, 9, 7, 15, 7, 12, 15, 9, 11, 7, 13, 12,
  11, 13, 6, 7, 14, 9, 13, 15, 14, 8, 13, 6, 5, 12, 7, 5,
  11, 12, 14, 15, 14, 15, 9, 8, 9, 14, 5, 6, 8, 6, 5, 12,
  9, 15, 5, 11, 6, 8, 13, 12, 5, 12, 13, 14, 11, 8, 5, 6]

def ripemd160SR : List Nat := [
  8, 9, 9, 11, 13, 15, 15, 5, 7, 7, 8, 11, 14, 14, 12, 6,
  9, 13, 15, 7, 12, 8, 9, 11, 7, 7, 12, 7, 6, 15, 13, 11,
  9, 7, 15, 11, 8, 6, 6, 14, 12, 13, 5, 14, 13, 13, 7, 5,
  15, 5, 8, 11, 14, 14, 6, 14, 6, 9, 12, 9, 12, 5, 15, 8,
  8, 5, 12, 9, 12, 5, 14, 6, 8, 13, 6, 5, 15, 13, 11, 11]

def ripemd160KL : List Nat := [0x00000000, 0x5A827999, 0x6ED9EBA1, 0x8F1BBCDC, 0xA953FD4E]

def ripemd160KR : List Nat := [0x50A28BE6, 0x5C4DD124, 0x6D703EF3, 0x7A6D76E9, 0x00000000]

def ripemd160F (j x y z : Nat) : Nat :=
  match j / 16 with
  | 0 => x ^^^ y ^^^ z
  | 1 => (x &&& y) ||| (not32 x &&& z)
  | 2 => (x ||| not32 y) ^^^ z
  | 3 => (x &&& z) ||| (y &&& not32 z)
  | _ => x ^^^ (y ||| not32 z)

def ripemd160Pad (msg : List Byte) : List Byte :=
  msg ++ [byteOf 0x80] ++ List.replicate ((119 - msg.length % 64) % 64) (byteOf 0)
    ++ leBytes 8 (8 * msg.length)

def ripemd160Step (x : List Nat) (left : Bool) (s : Ripemd160State) (j : Nat) :
    Ripemd160State :=
  let f := if left then ripemd160F j s.h1 s.h2 s.h3 else ripemd160F (79 - j) s.h1 s.h2 s.h3
  let r := (if left then ripemd160RL else ripemd160RR).getD j 0
  let k := (if left then ripemd160KL else ripemd160KR).getD (j / 16) 0
  let sh := (if left then ripemd160SL else ripemd160SR).getD j 0
  let t := add32 (rotl32 (add32 (add32 s.h0 f) (add32 (x.getD r 0) k)) sh) s.h4
  ⟨s.h4, t, s.h1, rotl32 s.h2 10, s.h3⟩

def ripemd160Block (s : Ripemd160State) (block : List Byte) : Ripemd160State :=
  let x := (chunks 4 16 block).map leNat
  let l := (List.range 80).foldl (ripemd160Step x true) s
  let r := (List.range 80).foldl (ripemd160Step x false) s
  ⟨add32 (add32 s.h1 l.h2) r.h3, add32 (add32 s.h2 l.h3) r.h4, add32 (add32 s.h3 l.h4) r.h0,
   add32 (add32 s.h4 l.h0) r.h1, add32 (add32 s.h0 l.h1) r.h2⟩

/-- Modelled from the spec: the digest of `x/crypto/ripemd160` (imported, not in the
repository), the RIPEMD-160 that the glossary names as the second half of hash160. -/
def ripemd160 (msg : List Byte) : List Byte :=
  let p := ripemd160Pad msg
  let s := (chunks 64 (p.length / 64) p).foldl ripemd160Block ripemd160Init
  leBytes 4 s.h0 ++ leBytes 4 s.h1 ++ leBytes 4 s.h2 ++ leBytes 4 s.h3 ++ leBytes 4 s.h4

/-- Modelled from the spec: `btcutil.Hash160` (imported, not in the repository), the hash160 of
the glossary: the SHA-256 digest followed by the RIPEMD-160 digest of the result. -/
def Hash160 (buf : List Byte) : List Byte := ripemd160 (sha256 buf)

/-! ## Legacy Keccak-256 (padding byte 0x01), as `sha3.NewLegacyKeccak256` -/

def keccakRC : List Nat := [
  0x0000000000000001, 0x0000000000008082, 0x800000000000808A, 0x8000000080008000,
  0x000000000000808B, 0x0000000080000001, 0x8000000080008081, 0x8000000000008009,
  0x000000000000008A, 0x0000000000000088, 0x0000000080008009, 0x000000008000000A,
  0x000000008000808B, 0x800000000000008B, 0x8000000000008089, 0x8000000000008003,
  0x8000000000008002, 0x8000000000000080, 0x000000000000800A, 0x800000008000000A,
  0x8000000080008081, 0x8000000000008080, 0x0000000080000001, 0x8000000080008008]

def keccakRot : List Nat := [
  0, 1, 62, 28, 27, 36, 44, 6, 55, 20, 3, 10, 43, 25, 39,
  41, 45, 15, 21, 8, 18, 2, 61, 56, 14]

def keccakTheta (a : List Nat) : List Nat :=
  let c := (List.range 5).map fun x =>
    a.getD x 0 ^^^ a.getD (x + 5) 0 ^^^ a.getD (x + 10) 0 ^^^ a.getD (x + 15) 0
      ^^^ a.getD (x + 20) 0
  let d := (List.range 5).map fun x => c.getD ((x + 4) % 5) 0 ^^^ rotl64 (c.getD ((x + 1) % 5) 0) 1
  (List.range 25).map fun i => a.getD i 0 ^^^ d.getD (i % 5) 0

def keccakRhoPi (a : List Nat) : List Nat :=
  (List.range 25).map fun j =>
    let src := (j % 5 + 3 * (j / 5)) % 5 + 5 * (j % 5)
    rotl64 (a.getD src 0) (keccakRot.getD src 0)

def keccakChi (b : List Nat) : List Nat :=
  (List.range 25).map fun i =>
    b.getD i 0 ^^^ (not64 (b.getD ((i % 5 + 1) % 5 + 5 * (i / 5)) 0)
      &&& b.getD ((i % 5 + 2) % 5 + 5 * (i / 5)) 0)

def keccakRound (a : List Nat) (rc : Nat) : List Nat :=
  let b := keccakChi (keccakRhoPi (keccakTheta a))
  (List.range 25).map fun i => if i = 0 then b.getD 0 0 ^^^ rc else b.getD i 0

def keccakF1600 (a : List Nat) : List Nat := keccakRC.foldl keccakRound a

def keccakPad (msg : List Byte) : List Byte :=
  let z := 135 - msg.length % 136
  if z = 0 then msg ++ [byteOf 0x81]
  else msg ++ [byteOf 0x01] ++ List.replicate (z - 1) (byteOf 0) ++ [byteOf 0x80]

def keccakAbsorb (a : List Nat) (block : List Byte) : List Nat :=
  let lanes := (chunks 8 17 block).map leNat
  keccakF1600 ((List.range 25).map fun i => a.getD i 0 ^^^ lanes.getD i 0)

/-- Modelled from the spec: the digest written to and summed from `sha3.NewLegacyKeccak256`
(imported, not in the repository): the original Keccak-256 of the glossary, with rate 136 and
padding byte `0x01`, distinct from SHA3-256. -/
def legacyKeccak256 (msg : List Byte) : List Byte :=
  let p := keccakPad msg
  let a := (chunks 136 (p.length / 136) p).foldl keccakAbsorb (List.replicate 25 0)
  leBytes 8 (a.getD 0 0) ++ leBytes 8 (a.getD 1 0) ++ leBytes 8 (a.getD 2 0)
    ++ leBytes 8 (a.getD 3 0)

/-! ## secp256k1, as `btcec/v2` (a wrapper of `dcrec/secp256k1/v4`)

Field elements are natural numbers below `fieldPrime`; a Jacobian point is modelled by the
affine point it denotes, `none` being the point at infinity. -/

def fieldPrime : Nat := 2 ^ 256 - 2 ^ 32 - 977

def curveOrder : Nat := 0xFFFFFFFFFFFFFFFFFFFFFFFFFFFFFFFEBAAEDCE6AF48A03BBFD25E8CD0364141

/-- Square-and-multiply: `acc * b ^ e` modulo `m`, for `e < 2 ^ fuel`. -/
def powMod (m : Nat) : Nat → Nat → Nat → Nat → Nat
  | 0, _, _, acc => acc
  | fuel + 1, b, e, acc =>
    if e = 0 then acc
    else powMod m fuel (b * b % m) (e / 2) (if e % 2 = 1 then acc * b % m else acc)

/-- Candidate square root of `FieldVal.SquareRootVal`: `c ^ ((p + 1) / 4)`. -/
def fieldSqrt (c : Nat) : Nat := powMod fieldPrime 256 (c % fieldPrime) ((fieldPrime + 1) / 4) 1

/-- Inverse of `FieldVal.Inverse`: `a ^ (p - 2)`. -/
def fieldInv (a : Nat) : Nat := powMod fieldPrime 256 (a % fieldPrime) (fieldPrime - 2) 1

def fieldSub (a b : Nat) : Nat := (a % fieldPrime + (fieldPrime - b % fieldPrime)) % fieldPrime

/-- Public key of `secp256k1.PublicKey`: the affine coordinates. -/
structure PublicKey where
  x : Nat
  y : Nat
deriving DecidableEq, Repr

def isOnCurve (x y : Nat) : Bool := y * y % fieldPrime == (x * x % fieldPrime * x + 7) % fieldPrime

/-- Solve `y ^ 2 = x ^ 3 + 7` for the root of the requested oddness (`secp256k1.DecompressY`). -/
def DecompressY (x : Nat) (odd : Bool) : Option Nat :=
  let c := (x * x % fieldPrime * x + 7) % fieldPrime
  let r := fieldSqrt c
  if r * r % fieldPrime ≠ c then none
  else if (r % 2 == 1) != odd then some (fieldSub 0 r)
  else some r

/-- Text of the verb `%x` on an unsigned integer. -/
def hexNat (n : Nat) : String := String.mk (Nat.toDigits 16 n)

/-- Text of `FieldVal.String`. -/
def fieldString (v : Nat) : String := hexEncode (beBytes 32 v)

/-- Modelled from the spec: `btcec.ParsePubKey` (imported, not in the repository), which
forwards to `secp256k1.ParsePubKey`.  A key is the compressed (33 bytes, format `0x02` or
`0x03`) or uncompressed (65 bytes, format `0x04`) encoding of a curve point; any other length
or format byte, a coordinate that is not below the field prime, or a point off the curve is an
invalid encoding.  The hybrid format (65 bytes, `0x06` or `0x07`) and the texts of the errors,
which the specification leaves open, follow the package. -/
def ParsePubKey (serialized : List Byte) : Except String PublicKey :=
  if serialized.length = 65 then
    let format := (serialized.getD 0 0).val
    if format ≠ 0x04 ∧ format ≠ 0x06 ∧ format ≠ 0x07 then
      .error ("invalid public key: unsupported format: " ++ hexNat format)
    else
      let x := beNat ((serialized.drop 1).take 32)
      let y := beNat (serialized.drop 33)
      if fieldPrime ≤ x then .error "invalid public key: x >= field prime"
      else if fieldPrime ≤ y then .error "invalid public key: y >= field prime"
      else if (format = 0x06 ∨ format = 0x07) ∧ (y % 2 == 1) != (format == 0x07) then
        .error ("invalid public key: y oddness does not match specified value of "
          ++ toString (format == 0x07))
      else if !isOnCurve x y then
        .error ("invalid public key: [" ++ fieldString x ++ "," ++ fieldString y
          ++ "] not on secp256k1 curve")
      else .ok ⟨x, y⟩
  else if serialized.length = 33 then
    let format := (serialized.getD 0 0).val
    if format ≠ 0x02 ∧ format ≠ 0x03 then
      .error ("invalid public key: unsupported format: " ++ hexNat format)
    else
      let x := beNat ((serialized.drop 1).take 32)
      if fieldPrime ≤ x then .error "invalid public key: x >= field prime"
      else
        match DecompressY x (format == 0x03) with
        | none =>
          .error ("invalid public key: x coordinate " ++ fieldString x
            ++ " is not on the secp256k1 curve")
        | some y => .ok ⟨x, y⟩
  else
    .error ("malformed public key: invalid length: " ++ toString serialized.length)

/-- Modelled from the spec: `PublicKey.SerializeCompressed` (imported, not in the repository):
the parity byte `0x02` or `0x03`, then the 32 bytes of x. -/
def PublicKey.SerializeCompressed (k : PublicKey) : List Byte :=
  byteOf (if k.y % 2 = 1 then 0x03 else 0x02) :: beBytes 32 k.x

/-- Modelled from the spec: `PublicKey.SerializeUncompressed` (imported, not in the
repository): 65 bytes, `0x04`, then the 32 bytes of x and the 32 bytes of y. -/
def PublicKey.SerializeUncompressed (k : PublicKey) : List Byte :=
  byteOf 0x04 :: (beBytes 32 k.x ++ beBytes 32 k.y)

/-- The hybrid serialisation: `0x06` or `0x07` by the oddness of y, then x and y. -/
def PublicKey.SerializeHybrid (k : PublicKey) : List Byte :=
  byteOf (if k.y % 2 = 1 then 0x07 else 0x06) :: (beBytes 32 k.x ++ beBytes 32 k.y)

abbrev Point := Option (Nat × Nat)

def pointDouble : Point → Point
  | none => none
  | some (x, y) =>
    if y = 0 then none
    else
      let l := 3 * x % fieldPrime * x % fieldPrime * fieldInv (2 * y) % fieldPrime
      let x3 := fieldSub (l * l) (2 * x)
      some (x3, fieldSub (l * fieldSub x x3) y)

def pointAdd : Point → Point → Point
  | none, q => q
  | some p, none => some p
  | some (x1, y1), some (x2, y2) =>
    if x1 = x2 then
      if y1 = y2 then pointDouble (some (x1, y1)) else none
    else
      let l := fieldSub y2 y1 * fieldInv (fieldSub x2 x1) % fieldPrime
      let x3 := fieldSub (l * l) (x1 + x2)
      some (x3, fieldSub (l * fieldSub x1 x3) y1)

def generator : Nat × Nat :=
  (0x79BE667EF9DCBBAC55A06295CE870B07029BFCDB2DCE28D959F2815B16F81798,
   0x483ADA7726A3C4655DA4FBFC0E1108A8FD17B448A68554199C47D08FFB10D4B8)

def scalarMult : Nat → Nat → Point → Point → Point
  | 0, _, _, acc => acc
  | fuel + 1, k, q, acc =>
    if k = 0 then acc
    else scalarMult fuel (k / 2) (pointDouble q) (if k % 2 = 1 then pointAdd acc q else acc)

/-- Multiple `k * G` of the generator, for `k < 2 ^ 256`. -/
def ScalarBaseMultNonConst (k : Nat) : Point := scalarMult 256 k (some generator) none

/-- Affine coordinates after `JacobianPoint.ToAffine`; infinity becomes `(0, 0)`. -/
def pointToAffine : Point → PublicKey
  | none => ⟨0, 0⟩
  | some (x, y) => ⟨x, y⟩

/-- Tagged hash of `chainhash.TaggedHash` (BIP-340). -/
def TaggedHash (tag : String) (msg : List Byte) : List Byte :=
  let t := sha256 (asciiBytes tag)
  sha256 (t ++ t ++ msg)

/-- The x-only form of `schnorr.SerializePubKey`. -/
def schnorrSerializePubKey (k : PublicKey) : List Byte := k.SerializeCompressed.drop 1

/-- Parser of `schnorr.ParsePubKey`: the 32 bytes are read as a compressed key of even y. -/
def schnorrParsePubKey (pubKeyStr : List Byte) : Except String PublicKey :=
  if pubKeyStr.length = 0 then .error "malformed public key: invalid length: 0"
  else if pubKeyStr.length ≠ 32 then
    .error ("malformed public key: invalid length: " ++ toString pubKeyStr.length)
  else ParsePubKey (byteOf 0x02 :: pubKeyStr)

/-- Modelled from the spec: `txscript.ComputeTaprootOutputKey` (imported, not in the
repository): the BIP-341 tweak, output key = internal key + hash(internal key) * G on the x-only
form of the internal key.  The package obtains the even-y internal key by re-parsing the x-only
bytes, discards the error of that re-parse and uses the returned pointer; `none` stands for
that nil dereference.  The tweak is reduced modulo the group order, as the package does. -/
def ComputeTaprootOutputKey (pubKey : PublicKey) (scriptRoot : List Byte) : Option PublicKey :=
  match schnorrParsePubKey (schnorrSerializePubKey pubKey) with
  | .error _ => none
  | .ok internalKey =>
    let tapTweakHash := TaggedHash "TapTweak" (schnorrSerializePubKey internalKey ++ scriptRoot)
    let tweakScalar := beNat tapTweakHash % curveOrder
    let tPoint := ScalarBaseMultNonConst tweakScalar
    some (pointToAffine (pointAdd (some (internalKey.x, internalKey.y)) tPoint))

/-- Modelled from the spec: `txscript.ComputeTaprootKeyNoScript` (imported, not in the
repository): the output key for an empty script root. -/
def ComputeTaprootKeyNoScript (internalKey : PublicKey) : Option PublicKey :=
  ComputeTaprootOutputKey internalKey []

/-! ## Addresses, as `btcutil`, `btcutil/base58`, `btcutil/bech32` and `chaincfg` -/

/-- Modelled from the spec: the fields of `chaincfg.Params` (imported, not in the repository)
read by the address constructors: the base58check version byte of pubkey-hash addresses and the
bech32 human-readable part of witness addresses. -/
structure Params where
  PubKeyHashAddrID : Byte
  Bech32HRPSegwit : String
deriving DecidableEq, Repr

/-- The values of `chaincfg.MainNetParams`. -/
def MainNetParams : Params := ⟨byteOf 0x00, "bc"⟩

def base58Alphabet : List Char := "123456789ABCDEFGHJKLMNPQRSTUVWXYZabcdefghijkmnopqrstuvwxyz".data

def base58Digits : Nat → Nat → List Char → List Char
  | 0, _, acc => acc
  | fuel + 1, x, acc =>
    if x = 0 then acc else base58Digits fuel (x / 58) (base58Alphabet.getD (x % 58) '1' :: acc)

/-- Text of `base58.Encode`: one `1` for each leading zero byte, then the base-58 digits. -/
def base58Encode (b : List Byte) : String :=
  String.mk (List.replicate (b.takeWhile fun c => c.val == 0).length '1'
    ++ base58Digits (2 * b.length) (beNat b) [])

/-- Modelled from the spec: `base58.CheckEncode` (imported, not in the repository), the
base58check of the glossary: version byte, payload and a 4-byte checksum, the first four bytes
of the double SHA-256, rendered in the base-58 alphabet. -/
def base58CheckEncode (input : List Byte) (version : Byte) : String :=
  let b := version :: input
  base58Encode (b ++ (sha256 (sha256 b)).take 4)

/-- The helper `encodeAddress` of `btcutil`: base58check of the first twenty bytes. -/
def encodeAddress (hash160 : List Byte) (netID : Byte) : String :=
  base58CheckEncode (hash160.take 20) netID

/-- Lowering of `strings.ToLower`, exact on the characters whose lowercase form is ASCII. -/
def goToLower (s : String) : String :=
  String.mk (s.data.map fun c =>
    if c.toNat = 0x130 then 'i' else if c.toNat = 0x212A then 'k' else c.toLower)

def bech32Charset : List Char := "qpzry9x8gf2tvdw0s3jn54khce6mua7l".data

def bech32Gen : List Nat := [0x3b6a57b2, 0x26508e6d, 0x1ea119fa, 0x3d4233dd, 0x2a1462b3]

def bech32PolymodStep (chk v : Nat) : Nat :=
  let b := chk >>> 25
  (List.range 5).foldl (fun c i => if (b >>> i) % 2 = 1 then c ^^^ bech32Gen.getD i 0 else c)
    (((chk &&& 0x1ffffff) <<< 5) ^^^ v)

def bech32Polymod (hrp : String) (values : List Nat) : Nat :=
  let expanded := (hrp.data.map fun c => c.toNat >>> 5) ++ [0]
    ++ (hrp.data.map fun c => c.toNat &&& 31)
  (expanded ++ values).foldl bech32PolymodStep 1

inductive Bech32Version where
  | Version0
  | VersionM
deriving DecidableEq, Repr

def Bech32Version.const : Bech32Version → Nat
  | .Version0 => 1
  | .VersionM => 0x2bc830a3

def bech32Checksum (hrp : String) (data : List Nat) (version : Bech32Version) : List Nat :=
  let polymod := bech32Polymod hrp (data ++ List.replicate 6 0) ^^^ version.const
  (List.range 6).map fun i => (polymod >>> (5 * (5 - i))) &&& 31

def bech32EncodeGeneric (hrp : String) (data : List Nat) (version : Bech32Version) :
    Except String String :=
  let hrp := goToLower hrp
  match data.find? (fun b => 32 ≤ b) with
  | some b => .error ("invalid data byte: " ++ toString b)
  | none =>
    .ok (hrp ++ "1" ++ String.mk ((data ++ bech32Checksum hrp data version).map
      fun b => bech32Charset.getD b 'q'))

def lastIndexOf (c : Char) (s : List Char) : Option Nat :=
  (List.range s.length).foldl (fun r i => if s.getD i 'x' = c then some i else r) none

def bech32DecodeGeneric (bech : String) : Except String (String × List Nat × Bech32Version) :=
  if 90 < bech.length ∨ bech.length < 8 then
    .error ("invalid bech32 string length " ++ toString bech.length)
  else
    match bech.data.find? (fun c => c.toNat < 33 ∨ 126 < c.toNat) with
    | some c => .error ("invalid character in string: " ++ toString c)
    | none =>
      if bech.data.any Char.isLower ∧ bech.data.any Char.isUpper then
        .error "string not all lowercase or all uppercase"
      else
        let s := bech.data.map Char.toLower
        match lastIndexOf '1' s with
        | none => .error "invalid separator index -1"
        | some one =>
          if one < 1 ∨ s.length < one + 7 then
            .error ("invalid separator index " ++ toString one)
          else
            let hrp := String.mk (s.take one)
            let data := s.drop (one + 1)
            match data.find? (fun c => c ∉ bech32Charset) with
            | some c => .error ("invalid character not part of charset: " ++ toString c.toNat)
            | none =>
              let decoded := data.map fun c => bech32Charset.indexOf c
              let polymod := bech32Polymod hrp decoded
              if polymod = Bech32Version.Version0.const then
                .ok (hrp, decoded.take (decoded.length - 6), .Version0)
              else if polymod = Bech32Version.VersionM.const then
                .ok (hrp, decoded.take (decoded.length - 6), .VersionM)
              else .error "invalid checksum"

def bitsOf (width v : Nat) : List Bool :=
  (List.range width).map fun i => (v >>> (width - 1 - i)) % 2 == 1

def natOfBits (bits : List Bool) : Nat := bits.foldl (fun acc b => 2 * acc + b.toNat) 0

/-- Regrouping of `bech32.ConvertBits`, on the big-endian bit stream of the groups. -/
def ConvertBits (data : List Nat) (fromBits toBits : Nat) (pad : Bool) :
    Except String (List Nat) :=
  if fromBits < 1 ∨ 8 < fromBits ∨ toBits < 1 ∨ 8 < toBits then
    .error "only bit groups between 1 and 8 allowed"
  else
    let bits := data.flatMap (bitsOf fromBits)
    let full := (chunks toBits (bits.length / toBits) bits).map natOfBits
    let rest := bits.drop (bits.length / toBits * toBits)
    if rest.length = 0 then .ok full
    else if pad then .ok (full ++ [natOfBits rest <<< (toBits - rest.length)])
    else if 4 < rest.length ∨ natOfBits rest ≠ 0 then .error "invalid incomplete group"
    else .ok full

def decodeSegWitAddress (address : String) : Except String (Nat × List Nat) :=
  match bech32DecodeGeneric address with
  | .error e => .error e
  | .ok (_, data, bech32version) =>
    match data with
    | [] => .error "no witness version"
    | version :: rest =>
      if 16 < version then .error ("invalid witness version: " ++ toString version)
      else
        match ConvertBits rest 5 8 false with
        | .error e => .error e
        | .ok regrouped =>
          if regrouped.length < 2 ∨ 40 < regrouped.length then
            .error ("invalid data length: " ++ toString regrouped.length)
          else if version = 0 ∧ regrouped.length ≠ 20 ∧ regrouped.length ≠ 32 then
            .error ("invalid data length for witness version 0: "
              ++ toString regrouped.length)
          else if version = 0 ∧ bech32version ≠ .Version0 then
            .error "invalid checksum expected bech32 encoding for address with witness version 0"
          else if version = 1 ∧ bech32version ≠ .VersionM then
            .error "invalid checksum expected bech32m encoding for address with witness version 1"
          else .ok (version, regrouped)

/-- Modelled from the spec: `btcutil.encodeSegWitAddress` (imported, not in the repository):
the witness version and the program regrouped in 5-bit groups, in bech32 for version 0 and
bech32m for version 1, under the human-readable part.  The package decodes its own output as a
check and fails when that does not give the version and program back. -/
def encodeSegWitAddress (hrp : String) (witnessVersion : Nat) (witnessProgram : List Byte) :
    Except String String :=
  match ConvertBits (witnessProgram.map Fin.val) 8 5 true with
  | .error e => .error e
  | .ok converted =>
    let combined := witnessVersion :: converted
    let encoded :=
      if witnessVersion = 0 then bech32EncodeGeneric hrp combined .Version0
      else if witnessVersion = 1 then bech32EncodeGeneric hrp combined .VersionM
      else .error ("unsupported witness version " ++ toString witnessVersion)
    match encoded with
    | .error e => .error e
    | .ok bech =>
      match decodeSegWitAddress bech with
      | .error e => .error ("invalid segwit address: " ++ e)
      | .ok (version, program) =>
        if version ≠ witnessVersion ∨ program ≠ witnessProgram.map Fin.val then
          .error "invalid segwit address: encoding/decoding mismatch"
        else .ok bech

inductive PubKeyFormat where
  | PKFUncompressed
  | PKFCompressed
  | PKFHybrid
deriving DecidableEq, Repr

structure AddressPubKey where
  pubKeyFormat : PubKeyFormat
  pubKey : PublicKey
  pubKeyHashID : Byte

/-- Modelled from the spec: `btcutil.NewAddressPubKey` (imported, not in the repository): the
key is parsed, and the address remembers the format the key came in. -/
def NewAddressPubKey (serializedPubKey : List Byte) (net : Params) :
    Except String AddressPubKey :=
  match ParsePubKey serializedPubKey with
  | .error e => .error e
  | .ok pubKey =>
    let b := (serializedPubKey.getD 0 0).val
    let pkFormat :=
      if b = 0x02 ∨ b = 0x03 then PubKeyFormat.PKFCompressed
      else if b = 0x06 ∨ b = 0x07 then PubKeyFormat.PKFHybrid
      else PubKeyFormat.PKFUncompressed
    .ok ⟨pkFormat, pubKey, net.PubKeyHashAddrID⟩

def AddressPubKey.serialize (a : AddressPubKey) : List Byte :=
  match a.pubKeyFormat with
  | .PKFUncompressed => a.pubKey.SerializeUncompressed
  | .PKFCompressed => a.pubKey.SerializeCompressed
  | .PKFHybrid => a.pubKey.SerializeHybrid

/-- Modelled from the spec: `AddressPubKey.EncodeAddress` (imported, not in the repository).
The specification says only that the text is a base58check encoding; as in the package, it is
the pay-to-pubkey-hash text of the key serialised in its own format. -/
def AddressPubKey.EncodeAddress (a : AddressPubKey) : String :=
  encodeAddress (Hash160 a.serialize) a.pubKeyHashID

structure AddressPubKeyHash where
  hash : List Byte
  netID : Byte

/-- Modelled from the spec: `btcutil.NewAddressPubKeyHash` (imported, not in the repository):
fails when the hash is not exactly twenty bytes long. -/
def NewAddressPubKeyHash (pkHash : List Byte) (net : Params) : Except String AddressPubKeyHash :=
  if pkHash.length ≠ 20 then .error "pkHash must be 20 bytes"
  else .ok ⟨pkHash, net.PubKeyHashAddrID⟩

/-- Modelled from the spec: `AddressPubKeyHash.EncodeAddress` (imported, not in the
repository): base58check of the version byte and the hash. -/
def AddressPubKeyHash.EncodeAddress (a : AddressPubKeyHash) : String :=
  encodeAddress a.hash a.netID

structure AddressSegWit where
  hrp : String
  witnessVersion : Nat
  witnessProgram : List Byte

/-- Modelled from the spec: `AddressSegWit.EncodeAddress` (imported, not in the repository):
the segwit text, or the empty string when the encoder fails. -/
def AddressSegWit.EncodeAddress (a : AddressSegWit) : String :=
  match encodeSegWitAddress a.hrp a.witnessVersion a.witnessProgram with
  | .error _ => ""
  | .ok str => str

/-- Modelled from the spec: `btcutil.NewAddressWitnessPubKeyHash` (imported, not in the
repository): a version 0 address; fails when the program is not twenty bytes long. -/
def NewAddressWitnessPubKeyHash (witnessProg : List Byte) (net : Params) :
    Except String AddressSegWit :=
  if witnessProg.length ≠ 20 then .error "witness program must be 20 bytes for p2wpkh"
  else .ok ⟨goToLower net.Bech32HRPSegwit, 0x00, witnessProg⟩

/-- Modelled from the spec: `btcutil.NewAddressTaproot` (imported, not in the repository): a
version 1 address; fails when the program is not 32 bytes long. -/
def NewAddressTaproot (witnessProg : List Byte) (net : Params) : Except String AddressSegWit :=
  if witnessProg.length ≠ 32 then .error "witness program must be 32 bytes for p2tr"
  else .ok ⟨goToLower net.Bech32HRPSegwit, 0x01, witnessProg⟩

/-! ## The calls of `account.go` into its imports -/

/-- The functions of the imported packages that `account.go` calls, over the types they
return.  `ComputeTaprootKeyNoScript` returns `none` when the call would not return. -/
structure Lib where
  PublicKey : Type
  AddressPubKey : Type
  AddressPubKeyHash : Type
  AddressWitnessPubKeyHash : Type
  AddressTaproot : Type
  ParsePubKey : List Byte → Except String PublicKey
  SerializeCompressed : PublicKey → List Byte
  SerializeUncompressed : PublicKey → List Byte
  ComputeTaprootKeyNoScript : PublicKey → Option PublicKey
  Hash160 : List Byte → List Byte
  NewAddressPubKey : List Byte → Params → Except String AddressPubKey
  NewAddressPubKeyHash : List Byte → Params → Except String AddressPubKeyHash
  NewAddressWitnessPubKeyHash : List Byte → Params → Except String AddressWitnessPubKeyHash
  NewAddressTaproot : List Byte → Params → Except String AddressTaproot
  EncodeAddressPubKey : AddressPubKey → String
  EncodeAddressPubKeyHash : AddressPubKeyHash → String
  EncodeAddressWitnessPubKeyHash : AddressWitnessPubKeyHash → String
  EncodeAddressTaproot : AddressTaproot → String
  LegacyKeccak256 : List Byte → List Byte
  EncodeToString : List Byte → String

/-- Modelled from the spec: the packages imported by `account.go`, which are not in the
repository, bundled from the definitions above. -/
def btcd : Lib where
  PublicKey := PublicKey
  AddressPubKey := AddressPubKey
  AddressPubKeyHash := AddressPubKeyHash
  AddressWitnessPubKeyHash := AddressSegWit
  AddressTaproot := AddressSegWit
  ParsePubKey := ParsePubKey
  SerializeCompressed := PublicKey.SerializeCompressed
  SerializeUncompressed := PublicKey.SerializeUncompressed
  ComputeTaprootKeyNoScript := ComputeTaprootKeyNoScript
  Hash160 := Hash160
  NewAddressPubKey := NewAddressPubKey
  NewAddressPubKeyHash := NewAddressPubKeyHash
  NewAddressWitnessPubKeyHash := NewAddressWitnessPubKeyHash
  NewAddressTaproot := NewAddressTaproot
  EncodeAddressPubKey := AddressPubKey.EncodeAddress
  EncodeAddressPubKeyHash := AddressPubKeyHash.EncodeAddress
  EncodeAddressWitnessPubKeyHash := AddressSegWit.EncodeAddress
  EncodeAddressTaproot := AddressSegWit.EncodeAddress
  LegacyKeccak256 := legacyKeccak256
  EncodeToString := hexEncode

/-! ## `account.go` -/

/-- Account represents a blockchain account derived from a public key. -/
structure Account where
  params : Params
  PubKey : List Byte
  AddressP2PK : String
  AddressP2PKH : String
  AddressP2WPKH : String
  AddressP2TR : String
  AddressEth : String
deriving DecidableEq, Repr

/-- NewAccount creates a new Account instance for a given public key and network parameters. -/
def NewAccount (pubKey : List Byte) (params : Params) : Account :=
  { params := params, PubKey := pubKey, AddressP2PK := "", AddressP2PKH := "",
    AddressP2WPKH := "", AddressP2TR := "", AddressEth := "" }

/-- Result of a method on `*Account`: the account after the call and the returned error. -/
inductive Outcome where
  | ok (a : Account)
  | err (a : Account) (msg : String)
  | crash
deriving DecidableEq, Repr

/-- The method generateP2PK generates the Pay-to-PubKey (P2PK) address. -/
def Account.generateP2PK (L : Lib) (a : Account) : Outcome :=
  match L.NewAddressPubKey a.PubKey a.params with
  | .error err => .err a err
  | .ok address => .ok { a with AddressP2PK := L.EncodeAddressPubKey address }

/-- The method generateP2PKH generates the Pay-to-PubKey-Hash (P2PKH) address. -/
def Account.generateP2PKH (L : Lib) (a : Account) : Outcome :=
  let pubKeyHash := L.Hash160 a.PubKey
  match L.NewAddressPubKeyHash pubKeyHash a.params with
  | .error err => .err a err
  | .ok address => .ok { a with AddressP2PKH := L.EncodeAddressPubKeyHash address }

/-- The method generateP2WPKH generates the Pay-to-Witness-PubKey-Hash (P2WPKH) address. -/
def Account.generateP2WPKH (L : Lib) (a : Account) : Outcome :=
  let pubKeyHash := L.Hash160 a.PubKey
  match L.NewAddressWitnessPubKeyHash pubKeyHash a.params with
  | .error err => .err a err
  | .ok address => .ok { a with AddressP2WPKH := L.EncodeAddressWitnessPubKeyHash address }

/-- The method generateP2TR generates the Pay-to-Taproot (P2TR) address. -/
def Account.generateP2TR (L : Lib) (a : Account) : Outcome :=
  match L.ParsePubKey a.PubKey with
  | .error err => .err a err
  | .ok internalKey =>
    match L.ComputeTaprootKeyNoScript internalKey with
    | none => .crash
    | some taprootKey =>
      let serialized := L.SerializeCompressed taprootKey
      if serialized.length < 1 then .crash
      else
        match L.NewAddressTaproot (serialized.drop 1) a.params with
        | .error err => .err a err
        | .ok address => .ok { a with AddressP2TR := L.EncodeAddressTaproot address }

/-- The method generateEth generates the Ethereum address. -/
def Account.generateEth (L : Lib) (a : Account) : Outcome :=
  match L.ParsePubKey a.PubKey with
  | .error err => .err a err
  | .ok pubKey =>
    let addressBytes := L.LegacyKeccak256 (L.SerializeUncompressed pubKey)
    if addressBytes.length < 12 then .crash
    else .ok { a with AddressEth := "0x" ++ L.EncodeToString (addressBytes.drop 12) }

/-- GenerateAddresses generates all supported addresses (P2PK, P2PKH, P2WPKH, P2TR, and
Ethereum). -/
def Account.GenerateAddresses (L : Lib) (a : Account) : Outcome :=
  match a.generateP2PK L with
  | .crash => .crash
  | .err a err => .err a ("failed to generate P2PK address: " ++ err)
  | .ok a =>
  match a.generateP2PKH L with
  | .crash => .crash
  | .err a err => .err a ("failed to generate P2PKH address: " ++ err)
  | .ok a =>
  match a.generateP2WPKH L with
  | .crash => .crash
  | .err a err => .err a ("failed to generate P2WPKH address: " ++ err)
  | .ok a =>
  match a.generateP2TR L with
  | .crash => .crash
  | .err a err => .err a ("failed to generate P2TR address: " ++ err)
  | .ok a =>
  match a.generateEth L with
  | .crash => .crash
  | .err a err => .err a ("failed to generate Ethereum address: " ++ err)
  | .ok a => .ok a

/-! ## The orchestration and the derivations in the words of the specification -/

/-- The five derivations in the order of the specification, each with the kind its error is
labelled with. -/
def derivations (L : Lib) : List (String × (Account → Outcome)) :=
  [("P2PK", Account.generateP2PK L), ("P2PKH", Account.generateP2PKH L),
   ("P2WPKH", Account.generateP2WPKH L), ("P2TR", Account.generateP2TR L),
   ("Ethereum", Account.generateEth L)]

/-- Run the derivations one after the other against the account; stop at the first that fails
and wrap its cause in the label of its kind. -/
def runInSequence : List (String × (Account → Outcome)) → Account → Outcome
  | [], a => .ok a
  | (kind, derive) :: rest, a =>
    match derive a with
    | .ok b => runInSequence rest b
    | .err b cause => .err b ("failed to generate " ++ kind ++ " address: " ++ cause)
    | .crash => .crash

/-- The BIP-341 key-path-only output key in the words of the specification: the x-only internal
key is lifted to the point of even y, and the generator multiple of its `TapTweak` tagged hash
is added to it. -/
def taprootOutputKey (P : PublicKey) : PublicKey :=
  let y := if P.y % 2 = 0 then P.y else fieldPrime - P.y
  let t := beNat (TaggedHash "TapTweak" (beBytes 32 P.x)) % curveOrder
  pointToAffine (pointAdd (some (P.x, y)) (ScalarBaseMultNonConst t))

/-! ## Test data -/

/-- Compressed encoding of the secp256k1 generator point. -/
def generatorCompressed : List Byte :=
  beBytes 33 0x0279BE667EF9DCBBAC55A06295CE870B07029BFCDB2DCE28D959F2815B16F81798

/-- Uncompressed encoding of the secp256k1 generator point. -/
def generatorUncompressed : List Byte :=
  beBytes 65 0x0479BE667EF9DCBBAC55A06295CE870B07029BFCDB2DCE28D959F2815B16F81798483ADA7726A3C4655DA4FBFC0E1108A8FD17B448A68554199C47D08FFB10D4B8

/-- A malformed key of ten bytes. -/
def tenBytes : List Byte := beBytes 10 0x0102030405060708090a

/-- The library with a taproot address constructor that rejects every witness program: the
error branch after `NewAddressTaproot` is then the first to be taken. -/
def rejectingTaproot : Lib :=
  { btcd with NewAddressTaproot := fun _ _ => .error "witness program must be 32 bytes for p2tr" }

/-! ## Primality certificates -/

/-- Lucas test with witness `a`, given the prime factors `fs` of `p - 1`. -/
def lucasCheck (p a : Nat) (fs : List Nat) : Bool :=
  decide (1 < p) && decide (p - 1 < 2 ^ 256) && fs.prod == p - 1 && powMod p 256 a (p - 1) 1 % p == 1
    && fs.all fun q => powMod p 256 a ((p - 1) / q) 1 % p != 1

/-! ## Arithmetic modulo the field prime -/

theorem powMod_modEq (m : Nat) : ∀ (fuel b e acc : Nat), e < 2 ^ fuel →
    powMod m fuel b e acc % m = acc * b ^ e % m := by
  intro fuel
  induction fuel with
  | zero =>
    intro b e acc h
    have he : e = 0 := by simpa using h
    subst he
    simp [powMod]
  | succ n ih =>
    intro b e acc h
    unfold powMod
    by_cases he : e = 0
    · subst he; simp
    · rw [if_neg he]
      have h2 : e / 2 < 2 ^ n := by
        rw [Nat.div_lt_iff_lt_mul (by norm_num)]
        rw [pow_succ] at h
        exact h
      rw [ih _ _ _ h2]
      have hsplit : b ^ e = (b * b) ^ (e / 2) * b ^ (e % 2) := by
        rw [← pow_two, ← pow_mul, ← pow_add, Nat.div_add_mod]
      have hbb : ∀ x : Nat, x * (b * b % m) ^ (e / 2) % m = x * (b * b) ^ (e / 2) % m := by
        intro x
        rw [Nat.mul_mod, Nat.pow_mod, Nat.mod_mod, ← Nat.pow_mod, ← Nat.mul_mod]
      rcases Nat.mod_two_eq_zero_or_one e with h0 | h1
      · rw [if_neg (by omega), hbb, hsplit, h0, pow_zero, mul_one]
      · rw [if_pos h1, hsplit, h1, pow_one]
        rw [Nat.mul_mod, Nat.mod_mod, ← Nat.mul_mod, hbb]
        congr 1
        ring

theorem prime_of_lucasCheck (p a : Nat) (fs : List Nat) (hfs : ∀ q ∈ fs, Nat.Prime q)
    (h : lucasCheck p a fs = true) : Nat.Prime p := by
  simp only [lucasCheck, Bool.and_eq_true, decide_eq_true_eq, beq_iff_eq, List.all_eq_true,
    bne_iff_ne, ne_eq] at h
  obtain ⟨⟨⟨⟨hp1, hlt⟩, hprod⟩, h1⟩, hall⟩ := h
  have key : ∀ e, e < 2 ^ 256 → ((a : ZMod p) ^ e = 1 ↔ powMod p 256 a e 1 % p = 1) := by
    intro e he
    rw [powMod_modEq p 256 a e 1 he, one_mul]
    have : ((a : ZMod p) ^ e = 1) ↔ (((a ^ e : ℕ) : ZMod p) = ((1 : ℕ) : ZMod p)) := by
      push_cast; rfl
    rw [this, ZMod.natCast_eq_natCast_iff', Nat.mod_eq_of_lt hp1]
  apply lucas_primality p (a : ZMod p)
  · exact (key _ hlt).2 h1
  · intro q hq hdvd
    rw [← hprod] at hdvd
    obtain ⟨r, hr, hqr⟩ := (Prime.dvd_prod_iff hq.prime).1 hdvd
    have hqeq : q = r := (Nat.prime_dvd_prime_iff_eq hq (hfs r hr)).1 hqr
    subst hqeq
    rw [ne_eq, key _ (lt_of_le_of_lt (Nat.div_le_self _ _) hlt)]
    exact hall q hr

theorem prime_13331831 : Nat.Prime 13331831 :=
  prime_of_lucasCheck _ 13 [2, 5, 971, 1373] (by simp; norm_num) (by decide!)

theorem prime_173378833005251801 : Nat.Prime 173378833005251801 :=
  prime_of_lucasCheck _ 6 [2, 2, 2, 5, 5, 2621, 24809, 13331831]
    (by simp; refine ⟨?_, ?_, ?_, ?_, prime_13331831⟩ <;> norm_num) (by decide!)

theorem prime_22149492674086928081353 : Nat.Prime 22149492674086928081353 :=
  prime_of_lucasCheck _ 5 [2, 2, 2, 3, 5323, 173378833005251801]
    (by simp; refine ⟨?_, ?_, ?_, prime_173378833005251801⟩ <;> norm_num) (by decide!)

theorem prime_132896956044521568488119 : Nat.Prime 132896956044521568488119 :=
  prime_of_lucasCheck _ 6 [2, 3, 22149492674086928081353]
    (by simp; refine ⟨?_, ?_, prime_22149492674086928081353⟩ <;> norm_num) (by decide!)

theorem prime_1206781 : Nat.Prime 1206781 :=
  prime_of_lucasCheck _ 10 [2, 2, 3, 5, 20113] (by simp; norm_num) (by decide!)

theorem prime_7240687 : Nat.Prime 7240687 :=
  prime_of_lucasCheck _ 3 [2, 3, 1206781]
    (by simp; refine ⟨?_, ?_, prime_1206781⟩ <;> norm_num) (by decide!)

theorem prime_107590001 : Nat.Prime 107590001 :=
  prime_of_lucasCheck _ 3 [2, 2, 2, 2, 5, 5, 5, 5, 7, 29, 53] (by simp; norm_num) (by decide!)

theorem prime_255515944373312847190720520512484175977 :
    Nat.Prime 255515944373312847190720520512484175977 :=
  prime_of_lucasCheck _ 3
    [2, 2, 2, 7, 7, 11, 1627, 2657, 4423, 41201, 96557, 7240687, 107590001]
    (by simp; refine ⟨?_, ?_, ?_, ?_, ?_, ?_, ?_, ?_, prime_7240687, prime_107590001⟩ <;> norm_num)
    (by decide!)

theorem prime_q1 :
    Nat.Prime 205115282021455665897114700593932402728804164701536103180137503955397371 :=
  prime_of_lucasCheck _ 10
    [2, 3, 5, 29, 29, 31, 7723, 132896956044521568488119,
      255515944373312847190720520512484175977]
    (by simp; refine ⟨?_, ?_, ?_, ?_, ?_, ?_, prime_132896956044521568488119,
          prime_255515944373312847190720520512484175977⟩ <;> norm_num)
    (by decide!)

theorem fieldPrime_prime : Nat.Prime fieldPrime :=
  prime_of_lucasCheck _ 3
    [2, 3, 7, 13441, 205115282021455665897114700593932402728804164701536103180137503955397371]
    (by simp; refine ⟨?_, ?_, ?_, ?_, prime_q1⟩ <;> norm_num) (by decide!)

theorem fieldPrime_pos : 0 < fieldPrime := by decide

theorem fieldPrime_odd : fieldPrime % 2 = 1 := by decide

theorem fieldPrime_lt : fieldPrime < 256 ^ 32 := by decide

theorem powMod_lt (m : Nat) : ∀ (fuel b e acc : Nat), acc < m → powMod m fuel b e acc < m := by
  intro fuel
  induction fuel with
  | zero => intro b e acc h; simpa [powMod] using h
  | succ n ih =>
    intro b e acc h
    unfold powMod
    split_ifs with h0 h1
    · exact h
    · exact ih _ _ _ (Nat.mod_lt _ (by omega))
    · exact ih _ _ _ h

theorem fieldSqrt_lt (c : Nat) : fieldSqrt c < fieldPrime :=
  powMod_lt _ _ _ _ _ (by decide)

theorem fieldSqrt_cast (c : Nat) :
    ((fieldSqrt c : ℕ) : ZMod fieldPrime) = (c : ZMod fieldPrime) ^ ((fieldPrime + 1) / 4) := by
  have h := powMod_modEq fieldPrime 256 (c % fieldPrime) ((fieldPrime + 1) / 4) 1 (by decide)
  rw [one_mul] at h
  have h2 : ((fieldSqrt c : ℕ) : ZMod fieldPrime)
      = (((c % fieldPrime) ^ ((fieldPrime + 1) / 4) : ℕ) : ZMod fieldPrime) := by
    rw [ZMod.natCast_eq_natCast_iff']
    exact h
  rw [h2]
  push_cast
  rw [ZMod.natCast_mod]

theorem zmod_sqrt_sq (Y : ZMod fieldPrime) :
    ((Y ^ 2) ^ ((fieldPrime + 1) / 4)) ^ 2 = Y ^ 2 := by
  haveI : Fact (Nat.Prime fieldPrime) := ⟨fieldPrime_prime⟩
  by_cases hY : Y = 0
  · subst hY
    have hne : (fieldPrime + 1) / 4 ≠ 0 := by decide
    simp [hne]
  · have hf := ZMod.pow_card_sub_one_eq_one hY
    have he : 2 * ((fieldPrime + 1) / 4 * 2) = (fieldPrime - 1) + 2 := by decide
    rw [← pow_mul, ← pow_mul, he, pow_add, hf, one_mul]

theorem natCast_eq_of_lt {a b : Nat} (ha : a < fieldPrime) (hb : b < fieldPrime)
    (h : (a : ZMod fieldPrime) = (b : ZMod fieldPrime)) : a = b := by
  rw [ZMod.natCast_eq_natCast_iff'] at h
  rwa [Nat.mod_eq_of_lt ha, Nat.mod_eq_of_lt hb] at h

theorem curve_rhs_cast (x : Nat) :
    (((x * x % fieldPrime * x + 7) % fieldPrime : ℕ) : ZMod fieldPrime)
      = (x : ZMod fieldPrime) ^ 3 + 7 := by
  rw [ZMod.natCast_mod]
  push_cast
  rw [ZMod.natCast_mod]
  push_cast
  ring

theorem isOnCurve_iff (x y : Nat) :
    isOnCurve x y = true ↔ (y : ZMod fieldPrime) ^ 2 = (x : ZMod fieldPrime) ^ 3 + 7 := by
  unfold isOnCurve
  rw [beq_iff_eq, ← curve_rhs_cast, ← ZMod.natCast_eq_natCast_iff', ZMod.natCast_mod]
  rw [Nat.cast_mul, ← pow_two]

/-- On a curve point, the candidate root is `y` or its negative, and squares to the right-hand
side of the curve equation. -/
theorem fieldSqrt_spec (x y c : Nat) (hy : y < fieldPrime) (hc : isOnCurve x y = true)
    (hcdef : c = (x * x % fieldPrime * x + 7) % fieldPrime) :
    fieldSqrt c * fieldSqrt c % fieldPrime = c ∧
      (fieldSqrt c = y ∨ (0 < y ∧ fieldSqrt c + y = fieldPrime)) := by
  haveI : Fact (Nat.Prime fieldPrime) := ⟨fieldPrime_prime⟩
  have hcY : (c : ZMod fieldPrime) = (y : ZMod fieldPrime) ^ 2 := by
    rw [(isOnCurve_iff x y).1 hc, hcdef]
    exact curve_rhs_cast x
  have hr2 : ((fieldSqrt c : ℕ) : ZMod fieldPrime) ^ 2 = (y : ZMod fieldPrime) ^ 2 := by
    rw [fieldSqrt_cast, hcY]
    exact zmod_sqrt_sq _
  have hrlt := fieldSqrt_lt c
  have hclt : c < fieldPrime := by rw [hcdef]; exact Nat.mod_lt _ fieldPrime_pos
  constructor
  · apply natCast_eq_of_lt (Nat.mod_lt _ fieldPrime_pos) hclt
    rw [ZMod.natCast_mod, hcY, ← hr2]
    push_cast
    ring
  · rcases sq_eq_sq_iff_eq_or_eq_neg.1 hr2 with h | h
    · left
      exact natCast_eq_of_lt hrlt hy h
    · have hsum : ((fieldSqrt c + y : ℕ) : ZMod fieldPrime) = 0 := by
        push_cast
        rw [h]
        ring
      rw [ZMod.natCast_zmod_eq_zero_iff_dvd] at hsum
      obtain ⟨k, hk⟩ := hsum
      have hk1 : k = 0 ∨ k = 1 := by
        rcases k with _ | _ | k
        · left; rfl
        · right; rfl
        · exfalso
          have : fieldPrime * (k + 1 + 1) ≥ fieldPrime * 2 := Nat.mul_le_mul_left _ (by omega)
          omega
      rcases hk1 with rfl | rfl
      · left
        omega
      · by_cases hy0 : y = 0
        · left
          subst hy0
          omega
        · right
          exact ⟨by omega, by omega⟩

/-- The right-hand side of the curve equation never vanishes: `-7` is not a cube modulo the field
prime, so no point of the curve has `y = 0`. -/
theorem curve_rhs_ne_zero (x : Nat) : (x * x % fieldPrime * x + 7) % fieldPrime ≠ 0 := by
  haveI : Fact (Nat.Prime fieldPrime) := ⟨fieldPrime_prime⟩
  intro h0
  have hX : (x : ZMod fieldPrime) ^ 3 + 7 = 0 := by
    rw [← curve_rhs_cast, h0, Nat.cast_zero]
  have h7 : ((fieldPrime - 7 : ℕ) : ZMod fieldPrime) = (x : ZMod fieldPrime) ^ 3 := by
    have h1 : ((fieldPrime - 7 : ℕ) : ZMod fieldPrime) + 7 = 0 := by
      have h2 : (((fieldPrime - 7) + 7 : ℕ) : ZMod fieldPrime) = 0 := by
        rw [ZMod.natCast_zmod_eq_zero_iff_dvd]
        exact ⟨1, by decide⟩
      rw [← h2]
      push_cast
      ring
    have h3 : (x : ZMod fieldPrime) ^ 3 = -7 := eq_neg_of_add_eq_zero_left hX
    rw [h3]
    exact eq_neg_of_add_eq_zero_left h1
  have hx0 : (x : ZMod fieldPrime) ≠ 0 := by
    intro hx
    rw [hx] at hX
    have h7' : ((7 : ℕ) : ZMod fieldPrime) = 0 := by
      push_cast
      simpa using hX
    rw [ZMod.natCast_zmod_eq_zero_iff_dvd] at h7'
    exact absurd h7' (by decide)
  have hf := ZMod.pow_card_sub_one_eq_one hx0
  have key : ∀ b k : Nat, (b : ZMod fieldPrime) = (x : ZMod fieldPrime) ^ 3 →
      fieldPrime - 1 = 3 * k → k < 2 ^ 256 → powMod fieldPrime 256 b k 1 % fieldPrime = 1 := by
    intro b k hb hk hlt
    rw [powMod_modEq fieldPrime 256 b k 1 hlt, one_mul]
    have h1 : ((b ^ k : ℕ) : ZMod fieldPrime) = ((1 : ℕ) : ZMod fieldPrime) := by
      rw [Nat.cast_pow, hb, ← pow_mul, ← hk, hf, Nat.cast_one]
    rw [ZMod.natCast_eq_natCast_iff'] at h1
    rw [h1]
    decide
  have hval : powMod fieldPrime 256 (fieldPrime - 7) ((fieldPrime - 1) / 3) 1 % fieldPrime
      ≠ 1 := by decide!
  exact hval (key _ _ h7 (by decide) (by decide))

theorem fieldSub_zero_left (r : Nat) (hr : r < fieldPrime) (h0 : 0 < r) :
    fieldSub 0 r = fieldPrime - r := by
  unfold fieldSub
  rw [Nat.zero_mod, Nat.zero_add, Nat.mod_eq_of_lt hr, Nat.mod_eq_of_lt (by omega)]

theorem isOnCurve_neg (x y : Nat) (hy : y < fieldPrime) (h : isOnCurve x y = true) :
    isOnCurve x (fieldPrime - y) = true := by
  rw [isOnCurve_iff] at h ⊢
  rw [← h, Nat.cast_sub (le_of_lt hy)]
  simp

/-- Decompression recovers the ordinate of a curve point from its abscissa and oddness. -/
theorem DecompressY_of_isOnCurve (x y : Nat) (hy : y < fieldPrime)
    (hc : isOnCurve x y = true) : DecompressY x (y % 2 == 1) = some y := by
  simp only [DecompressY]
  generalize hcdef : (x * x % fieldPrime * x + 7) % fieldPrime = c
  obtain ⟨hsq, hor⟩ := fieldSqrt_spec x y c hy hc hcdef.symm
  have hrlt := fieldSqrt_lt c
  generalize fieldSqrt c = r at hsq hor hrlt ⊢
  rw [if_neg (not_not.2 hsq)]
  have hodd := fieldPrime_odd
  clear hsq hcdef hc
  rcases hor with h | ⟨hpos, h⟩
  · rw [h]
    simp
  · have hpar : ((r % 2 == 1) != (y % 2 == 1)) = true := by
      simp only [bne_iff_ne, ne_eq, beq_eq_beq]
      omega
    rw [if_pos hpar, fieldSub_zero_left _ hrlt (by omega)]
    congr 1
    omega

/-- Whatever decompression returns is a reduced ordinate on the curve with the requested
oddness. -/
theorem DecompressY_sound (x : Nat) (odd : Bool) (y : Nat) (h : DecompressY x odd = some y) :
    y < fieldPrime ∧ isOnCurve x y = true ∧ (y % 2 == 1) = odd := by
  have hne := curve_rhs_ne_zero x
  have hodd := fieldPrime_odd
  simp only [DecompressY] at h
  have hcv : ∀ r, r * r % fieldPrime = (x * x % fieldPrime * x + 7) % fieldPrime →
      isOnCurve x r = true := by
    intro r hr
    unfold isOnCurve
    rw [beq_iff_eq]
    exact hr
  generalize hcdef : (x * x % fieldPrime * x + 7) % fieldPrime = c at h hne hcv
  have hrlt := fieldSqrt_lt c
  generalize fieldSqrt c = r at h hrlt
  split_ifs at h with h1 h2
  · have hsq := not_not.1 h1
    have hr0 : 0 < r := by
      rcases Nat.eq_zero_or_pos r with h0 | h0
      · rw [h0] at hsq
        simp at hsq
        exact absurd hsq.symm hne
      · exact h0
    rw [fieldSub_zero_left _ hrlt hr0] at h
    injection h with h
    subst h
    refine ⟨by omega, isOnCurve_neg _ _ hrlt (hcv r hsq), ?_⟩
    simp only [bne_iff_ne, ne_eq] at h2
    clear hsq hcv h1 hne hcdef
    cases odd <;> simp at h2 ⊢ <;> omega
  · have hsq := not_not.1 h1
    injection h with h
    subst h
    refine ⟨hrlt, hcv _ hsq, ?_⟩
    simp only [bne_iff_ne, ne_eq, not_not] at h2
    exact h2

/-! ## Byte strings -/

theorem beBytes_length (n v : Nat) : (beBytes n v).length = n := by
  induction n with
  | zero => rfl
  | succ n ih => simp [beBytes, ih]

theorem leBytes_length (n : Nat) : ∀ v : Nat, (leBytes n v).length = n := by
  induction n with
  | zero => intro v; rfl
  | succ n ih => intro v; simp [leBytes, ih]

theorem beNat_foldl (bs : List Byte) (acc : Nat) :
    bs.foldl (fun acc b => acc * 256 + b.val) acc = acc * 256 ^ bs.length + beNat bs := by
  induction bs generalizing acc with
  | nil => simp [beNat]
  | cons b bs ih =>
    simp only [List.foldl_cons, List.length_cons, beNat]
    rw [ih, ih (0 * 256 + b.val)]
    ring

theorem beNat_cons (b : Byte) (bs : List Byte) :
    beNat (b :: bs) = b.val * 256 ^ bs.length + beNat bs := by
  have h := beNat_foldl bs (0 * 256 + b.val)
  simp only [beNat, List.foldl_cons]
  rw [h]
  simp [beNat]

theorem beNat_lt (bs : List Byte) : beNat bs < 256 ^ bs.length := by
  induction bs with
  | nil => simp [beNat]
  | cons b bs ih =>
    rw [beNat_cons, List.length_cons, pow_succ]
    have hb := b.isLt
    nlinarith

theorem beNat_beBytes (n v : Nat) : beNat (beBytes n v) = v % 256 ^ n := by
  induction n with
  | zero => simp [beBytes, beNat, Nat.mod_one]
  | succ n ih =>
    rw [beBytes, beNat_cons, ih, beBytes_length, Nat.mod_pow_succ]
    simp only [byteOf]
    ring

theorem beBytes_mod (n : Nat) : ∀ v : Nat, beBytes n (v % 256 ^ n) = beBytes n v := by
  induction n with
  | zero => intro v; rfl
  | succ n ih =>
    intro v
    rw [beBytes, beBytes]
    congr 1
    · apply Fin.ext
      simp only [byteOf]
      rw [pow_succ, Nat.mod_mul_right_div_self, Nat.mod_mod]
    · rw [← ih (v % 256 ^ (n + 1)), Nat.mod_mod_of_dvd _ (pow_dvd_pow 256 (Nat.le_succ n)), ih]

theorem beBytes_beNat (bs : List Byte) : beBytes bs.length (beNat bs) = bs := by
  induction bs with
  | nil => rfl
  | cons b bs ih =>
    rw [List.length_cons, beBytes, beNat_cons]
    congr 1
    · apply Fin.ext
      simp only [byteOf]
      rw [Nat.add_comm, Nat.add_mul_div_right _ _ (by positivity),
        Nat.div_eq_of_lt (beNat_lt bs), Nat.zero_add, Nat.mod_eq_of_lt b.isLt]
    · rw [← beBytes_mod, Nat.add_mod, Nat.mul_mod_left, Nat.zero_add, Nat.mod_mod, beBytes_mod]
      exact ih

theorem beBytes_beNat_of_length (bs : List Byte) (n : Nat) (h : bs.length = n) :
    beBytes n (beNat bs) = bs := by
  subst h
  exact beBytes_beNat bs

theorem beNat_beBytes_of_lt (n v : Nat) (h : v < 256 ^ n) : beNat (beBytes n v) = v := by
  rw [beNat_beBytes, Nat.mod_eq_of_lt h]

/-! ## Parsing and serialising keys -/

theorem ParsePubKey_invalid_length (pk : List Byte) (h33 : pk.length ≠ 33)
    (h65 : pk.length ≠ 65) :
    ParsePubKey pk = .error ("malformed public key: invalid length: " ++ toString pk.length) := by
  simp only [ParsePubKey]
  rw [if_neg h65, if_neg h33]

/-- A parsed key has reduced coordinates and lies on the curve. -/
theorem ParsePubKey_sound (pk : List Byte) (P : PublicKey) (h : ParsePubKey pk = .ok P) :
    P.x < fieldPrime ∧ P.y < fieldPrime ∧ isOnCurve P.x P.y = true := by
  simp only [ParsePubKey] at h
  by_cases h65 : pk.length = 65
  · rw [if_pos h65] at h
    split_ifs at h with h2 h3 h4 h5 h6
    injection h with h
    subst h
    exact ⟨Nat.lt_of_not_le h3, Nat.lt_of_not_le h4, by simpa using h6⟩
  · rw [if_neg h65] at h
    by_cases h33 : pk.length = 33
    · rw [if_pos h33] at h
      split_ifs at h with h2 h3
      split at h
      · cases h
      · rename_i y hy
        injection h with h
        subst h
        obtain ⟨hy1, hy2, _⟩ := DecompressY_sound _ _ _ hy
        exact ⟨Nat.lt_of_not_le h3, hy1, hy2⟩
    · rw [if_neg h33] at h
      cases h

theorem getD_zero_cons (b : Byte) (l : List Byte) : (b :: l).getD 0 0 = b := rfl

/-- Parsing the compressed encoding of a curve point returns the point. -/
theorem ParsePubKey_SerializeCompressed (x y : Nat) (hx : x < fieldPrime) (hy : y < fieldPrime)
    (hc : isOnCurve x y = true) :
    ParsePubKey (PublicKey.SerializeCompressed ⟨x, y⟩) = .ok ⟨x, y⟩ := by
  have hlen : (PublicKey.SerializeCompressed ⟨x, y⟩).length = 33 := by
    simp [PublicKey.SerializeCompressed, beBytes_length]
  have hx' : beNat (beBytes 32 x) = x :=
    beNat_beBytes_of_lt 32 x (lt_trans hx fieldPrime_lt)
  have hdec := DecompressY_of_isOnCurve x y hy hc
  simp only [ParsePubKey]
  rw [if_neg (by rw [hlen]; decide), if_pos hlen]
  have hser : PublicKey.SerializeCompressed ⟨x, y⟩
      = byteOf (if y % 2 = 1 then 3 else 2) :: beBytes 32 x := rfl
  have hdrop : ∀ (b : Byte) (l : List Byte), List.drop 1 (b :: l) = l := fun _ _ => rfl
  have htake : (beBytes 32 x).take 32 = beBytes 32 x :=
    List.take_of_length_le (by rw [beBytes_length])
  rw [hser, getD_zero_cons, hdrop, htake, hx']
  rcases Nat.mod_two_eq_zero_or_one y with h0 | h1
  · have hfmt : (byteOf (if y % 2 = 1 then 3 else 2)).val = 2 := by
      rw [if_neg (by omega)]; rfl
    rw [hfmt]
    have hb : (y % 2 == 1) = false := by simp [h0]
    rw [hb] at hdec
    simp [hdec, Nat.not_le.2 hx]
  · have hfmt : (byteOf (if y % 2 = 1 then 3 else 2)).val = 3 := by
      rw [if_pos h1]; rfl
    rw [hfmt]
    have hb : (y % 2 == 1) = true := by simp [h1]
    rw [hb] at hdec
    simp [hdec, Nat.not_le.2 hx]

/-- Parsing the uncompressed encoding of a curve point returns the point. -/
theorem ParsePubKey_SerializeUncompressed (x y : Nat) (hx : x < fieldPrime)
    (hy : y < fieldPrime) (hc : isOnCurve x y = true) :
    ParsePubKey (PublicKey.SerializeUncompressed ⟨x, y⟩) = .ok ⟨x, y⟩ := by
  have hlen : (PublicKey.SerializeUncompressed ⟨x, y⟩).length = 65 := by
    simp [PublicKey.SerializeUncompressed, beBytes_length]
  have hx' : beNat (beBytes 32 x) = x :=
    beNat_beBytes_of_lt 32 x (lt_trans hx fieldPrime_lt)
  have hy' : beNat (beBytes 32 y) = y :=
    beNat_beBytes_of_lt 32 y (lt_trans hy fieldPrime_lt)
  simp only [ParsePubKey]
  rw [if_pos hlen]
  have hser : PublicKey.SerializeUncompressed ⟨x, y⟩
      = byteOf 4 :: (beBytes 32 x ++ beBytes 32 y) := rfl
  have hdrop1 : ∀ (b : Byte) (l : List Byte), List.drop 1 (b :: l) = l := fun _ _ => rfl
  have hdrop33 : ∀ (b : Byte) (l : List Byte), List.drop 33 (b :: l) = List.drop 32 l :=
    fun _ _ => rfl
  have htake : (beBytes 32 x ++ beBytes 32 y).take 32 = beBytes 32 x := by
    rw [List.take_append_of_le_length (by rw [beBytes_length])]
    exact List.take_of_length_le (by rw [beBytes_length])
  have hdrop : (beBytes 32 x ++ beBytes 32 y).drop 32 = beBytes 32 y := by
    rw [List.drop_append_of_le_length (by rw [beBytes_length])]
    rw [List.drop_of_length_le (by rw [beBytes_length])]
    rfl
  have hfmt : (byteOf 4).val = 4 := rfl
  rw [hser, getD_zero_cons, hdrop1, hdrop33, htake, hdrop, hx', hy', hfmt]
  simp [hc, Nat.not_le.2 hx, Nat.not_le.2 hy]

/-- The shape of an accepted key: its length, format byte, and how the coordinates were read. -/
theorem ParsePubKey_cases (pk : List Byte) (P : PublicKey) (h : ParsePubKey pk = .ok P) :
    (pk.length = 65 ∧ P.x = beNat ((pk.drop 1).take 32) ∧ P.y = beNat (pk.drop 33) ∧
        ((pk.getD 0 0).val = 4 ∨
          (((pk.getD 0 0).val = 6 ∨ (pk.getD 0 0).val = 7) ∧
            (P.y % 2 == 1) = ((pk.getD 0 0).val == 7)))) ∨
    (pk.length = 33 ∧ P.x = beNat ((pk.drop 1).take 32) ∧
        ((pk.getD 0 0).val = 2 ∨ (pk.getD 0 0).val = 3) ∧
        (P.y % 2 == 1) = ((pk.getD 0 0).val == 3)) := by
  simp only [ParsePubKey] at h
  by_cases h65 : pk.length = 65
  · rw [if_pos h65] at h
    split_ifs at h with h2 h3 h4 h5 h6
    injection h with h
    subst h
    left
    refine ⟨h65, rfl, rfl, ?_⟩
    by_cases hf : (pk.getD 0 0).val = 4
    · left; exact hf
    · right
      have h67 : (pk.getD 0 0).val = 6 ∨ (pk.getD 0 0).val = 7 := by
        by_contra hcon
        push_neg at hcon
        exact h2 ⟨hf, hcon.1, hcon.2⟩
      refine ⟨h67, ?_⟩
      by_contra hcon
      apply h5
      refine ⟨h67, ?_⟩
      simpa using hcon
  · rw [if_neg h65] at h
    by_cases h33 : pk.length = 33
    · rw [if_pos h33] at h
      split_ifs at h with h2 h3
      split at h
      · cases h
      · rename_i y hy
        injection h with h
        subst h
        right
        obtain ⟨_, _, hpar⟩ := DecompressY_sound _ _ _ hy
        refine ⟨h33, rfl, ?_, hpar⟩
        by_contra hcon
        push_neg at hcon
        exact h2 hcon
    · rw [if_neg h33] at h
      cases h

theorem split_33 (pk : List Byte) (h : pk.length = 33) :
    pk = pk.getD 0 0 :: (pk.drop 1).take 32 := by
  cases pk with
  | nil => simp at h
  | cons b l =>
    have hl : l.length = 32 := by simpa using h
    show b :: l = b :: l.take 32
    rw [List.take_of_length_le (by omega)]

theorem split_65 (pk : List Byte) (h : pk.length = 65) :
    pk = pk.getD 0 0 :: ((pk.drop 1).take 32 ++ pk.drop 33) := by
  cases pk with
  | nil => simp at h
  | cons b l =>
    show b :: l = b :: (l.take 32 ++ l.drop 32)
    rw [List.take_append_drop]

theorem byteOf_eq (b : Byte) (n : Nat) (hn : n < 256) (h : b.val = n) : byteOf n = b := by
  apply Fin.ext
  simp only [byteOf]
  rw [Nat.mod_eq_of_lt hn, h]

/-- An address built by `NewAddressPubKey` serialises back to the bytes it was built from. -/
theorem NewAddressPubKey_serialize (pk : List Byte) (net : Params) (addr : AddressPubKey)
    (h : NewAddressPubKey pk net = .ok addr) :
    addr.serialize = pk ∧ addr.pubKeyHashID = net.PubKeyHashAddrID := by
  unfold NewAddressPubKey at h
  split at h
  · cases h
  · rename_i P hP
    injection h with h
    subst h
    refine ⟨?_, rfl⟩
    rcases ParsePubKey_cases pk P hP with ⟨hlen, hx, hy, hfmt⟩ | ⟨hlen, hx, hfmt, hpar⟩
    · have hlx : ((pk.drop 1).take 32).length = 32 := by
        rw [List.length_take, List.length_drop, hlen]; rfl
      have hly : (pk.drop 33).length = 32 := by
        rw [List.length_drop, hlen]
      have hbx : beBytes 32 P.x = (pk.drop 1).take 32 := by
        rw [hx]; exact beBytes_beNat_of_length _ _ hlx
      have hby : beBytes 32 P.y = pk.drop 33 := by
        rw [hy]; exact beBytes_beNat_of_length _ _ hly
      rcases hfmt with h4 | ⟨h67, hpar⟩
      · simp only [AddressPubKey.serialize, h4]
        simp only [PublicKey.SerializeUncompressed, hbx, hby]
        rw [byteOf_eq _ 4 (by decide) h4]
        exact (split_65 pk hlen).symm
      · rcases h67 with h6 | h7
        · simp only [AddressPubKey.serialize, h6]
          simp only [PublicKey.SerializeHybrid, hbx, hby]
          have hodd : ¬ (P.y % 2 = 1) := by
            rw [h6] at hpar
            simpa using hpar
          rw [if_neg hodd, byteOf_eq _ 6 (by decide) h6]
          exact (split_65 pk hlen).symm
        · simp only [AddressPubKey.serialize, h7]
          simp only [PublicKey.SerializeHybrid, hbx, hby]
          have hodd : P.y % 2 = 1 := by
            rw [h7] at hpar
            simpa using hpar
          rw [if_pos hodd, byteOf_eq _ 7 (by decide) h7]
          exact (split_65 pk hlen).symm
    · have hlx : ((pk.drop 1).take 32).length = 32 := by
        rw [List.length_take, List.length_drop, hlen]; rfl
      have hbx : beBytes 32 P.x = (pk.drop 1).take 32 := by
        rw [hx]; exact beBytes_beNat_of_length _ _ hlx
      rcases hfmt with h2 | h3
      · simp only [AddressPubKey.serialize, h2]
        simp only [PublicKey.SerializeCompressed, hbx]
        have hodd : ¬ (P.y % 2 = 1) := by
          rw [h2] at hpar
          simpa using hpar
        rw [if_neg hodd, byteOf_eq _ 2 (by decide) h2]
        exact (split_33 pk hlen).symm
      · simp only [AddressPubKey.serialize, h3]
        simp only [PublicKey.SerializeCompressed, hbx]
        have hodd : P.y % 2 = 1 := by
          rw [h3] at hpar
          simpa using hpar
        rw [if_pos hodd, byteOf_eq _ 3 (by decide) h3]
        exact (split_33 pk hlen).symm

theorem Hash160_length (buf : List Byte) : (Hash160 buf).length = 20 := by
  simp [Hash160, ripemd160, leBytes_length]

theorem legacyKeccak256_length (msg : List Byte) : (legacyKeccak256 msg).length = 32 := by
  simp [legacyKeccak256, leBytes_length]

theorem SerializeCompressed_drop (Q : PublicKey) :
    Q.SerializeCompressed.drop 1 = beBytes 32 Q.x := rfl

theorem SerializeCompressed_length (Q : PublicKey) : Q.SerializeCompressed.length = 33 := by
  simp [PublicKey.SerializeCompressed, beBytes_length]

theorem SerializeUncompressed_length (Q : PublicKey) : Q.SerializeUncompressed.length = 65 := by
  simp [PublicKey.SerializeUncompressed, beBytes_length]

/-- The re-parse inside `ComputeTaprootOutputKey` cannot fail on a curve point, and the library
computes the output key of BIP-341. -/
theorem ComputeTaprootKeyNoScript_eq (P : PublicKey) (hx : P.x < fieldPrime)
    (hy : P.y < fieldPrime) (hc : isOnCurve P.x P.y = true) :
    ComputeTaprootKeyNoScript P = some (taprootOutputKey P) := by
  have hodd := fieldPrime_odd
  obtain ⟨x, y⟩ := P
  simp only at hx hy hc
  have hser : schnorrSerializePubKey ⟨x, y⟩ = beBytes 32 x := rfl
  have hparse : schnorrParsePubKey (beBytes 32 x)
      = .ok ⟨x, if y % 2 = 0 then y else fieldPrime - y⟩ := by
    unfold schnorrParsePubKey
    rw [if_neg (by rw [beBytes_length]; decide), if_neg (by rw [beBytes_length]; decide)]
    by_cases hev : y % 2 = 0
    · rw [if_pos hev]
      have h := ParsePubKey_SerializeCompressed x y hx hy hc
      have hs : PublicKey.SerializeCompressed ⟨x, y⟩ = byteOf 0x02 :: beBytes 32 x := by
        simp only [PublicKey.SerializeCompressed]
        rw [if_neg (by omega)]
      rw [hs] at h
      exact h
    · rw [if_neg hev]
      have hy' : fieldPrime - y < fieldPrime := by omega
      have h := ParsePubKey_SerializeCompressed x (fieldPrime - y) hx hy'
        (isOnCurve_neg x y hy hc)
      have hs : PublicKey.SerializeCompressed ⟨x, fieldPrime - y⟩
          = byteOf 0x02 :: beBytes 32 x := by
        simp only [PublicKey.SerializeCompressed]
        rw [if_neg (by omega)]
      rw [hs] at h
      exact h
  simp only [ComputeTaprootKeyNoScript, ComputeTaprootOutputKey, hser, hparse, taprootOutputKey]
  rfl

/-! ## The methods of `Account` -/

theorem GenerateAddresses_eq_runInSequence (L : Lib) (a : Account) :
    a.GenerateAddresses L = runInSequence (derivations L) a := by
  simp only [Account.GenerateAddresses, derivations, runInSequence]
  cases a.generateP2PK L with
  | crash => rfl
  | err b c => rfl
  | ok a1 =>
    simp only []
    cases a1.generateP2PKH L with
    | crash => rfl
    | err b c => rfl
    | ok a2 =>
      simp only []
      cases a2.generateP2WPKH L with
      | crash => rfl
      | err b c => rfl
      | ok a3 =>
        simp only []
        cases a3.generateP2TR L with
        | crash => rfl
        | err b c => rfl
        | ok a4 =>
          simp only []
          cases a4.generateEth L with
          | crash => rfl
          | err b c => rfl
          | ok a5 => rfl

theorem generateP2PK_ok (L : Lib) (a b : Account) (h : a.generateP2PK L = .ok b) :
    b = { a with AddressP2PK := b.AddressP2PK } := by
  unfold Account.generateP2PK at h
  split at h
  · cases h
  · injection h with h; subst h; rfl

theorem generateP2PK_err (L : Lib) (a b : Account) (c : String)
    (h : a.generateP2PK L = .err b c) : b = a := by
  unfold Account.generateP2PK at h
  split at h
  · injection h with h _; exact h.symm
  · cases h

theorem generateP2PKH_ok (L : Lib) (a b : Account) (h : a.generateP2PKH L = .ok b) :
    b = { a with AddressP2PKH := b.AddressP2PKH } := by
  simp only [Account.generateP2PKH] at h
  split at h
  · cases h
  · injection h with h; subst h; rfl

theorem generateP2PKH_err (L : Lib) (a b : Account) (c : String)
    (h : a.generateP2PKH L = .err b c) : b = a := by
  simp only [Account.generateP2PKH] at h
  split at h
  · injection h with h _; exact h.symm
  · cases h

theorem generateP2WPKH_ok (L : Lib) (a b : Account) (h : a.generateP2WPKH L = .ok b) :
    b = { a with AddressP2WPKH := b.AddressP2WPKH } := by
  simp only [Account.generateP2WPKH] at h
  split at h
  · cases h
  · injection h with h; subst h; rfl

theorem generateP2WPKH_err (L : Lib) (a b : Account) (c : String)
    (h : a.generateP2WPKH L = .err b c) : b = a := by
  simp only [Account.generateP2WPKH] at h
  split at h
  · injection h with h _; exact h.symm
  · cases h

theorem generateP2TR_ok (L : Lib) (a b : Account) (h : a.generateP2TR L = .ok b) :
    b = { a with AddressP2TR := b.AddressP2TR } := by
  unfold Account.generateP2TR at h
  split at h
  · cases h
  · split at h
    · cases h
    · simp only [] at h
      split at h
      · cases h
      · split at h
        · cases h
        · injection h with h; subst h; rfl

theorem generateP2TR_err (L : Lib) (a b : Account) (c : String)
    (h : a.generateP2TR L = .err b c) : b = a := by
  unfold Account.generateP2TR at h
  split at h
  · injection h with h _; exact h.symm
  · split at h
    · cases h
    · simp only [] at h
      split at h
      · cases h
      · split at h
        · injection h with h _; exact h.symm
        · cases h

theorem generateEth_ok (L : Lib) (a b : Account) (h : a.generateEth L = .ok b) :
    b = { a with AddressEth := b.AddressEth } := by
  unfold Account.generateEth at h
  split at h
  · cases h
  · simp only [] at h
    split at h
    · cases h
    · injection h with h; subst h; rfl

theorem generateEth_err (L : Lib) (a b : Account) (c : String)
    (h : a.generateEth L = .err b c) : b = a := by
  unfold Account.generateEth at h
  split at h
  · injection h with h _; exact h.symm
  · simp only [] at h
    split at h
    · cases h
    · cases h

theorem encodeAddress_Hash160 (buf : List Byte) (netID : Byte) :
    encodeAddress (Hash160 buf) netID = base58CheckEncode (Hash160 buf) netID := by
  unfold encodeAddress
  rw [List.take_of_length_le (by rw [Hash160_length])]

theorem generateP2PK_btcd (a : Account) :
    a.generateP2PK btcd =
      match ParsePubKey a.PubKey with
      | .error e => .err a e
      | .ok _ =>
        .ok { a with
          AddressP2PK := base58CheckEncode (Hash160 a.PubKey) a.params.PubKeyHashAddrID } := by
  simp only [Account.generateP2PK, btcd]
  cases hnew : NewAddressPubKey a.PubKey a.params with
  | error e =>
    have hp : ParsePubKey a.PubKey = .error e := by
      unfold NewAddressPubKey at hnew
      split at hnew
      · rename_i e2 he2
        injection hnew with hnew
        rw [he2, hnew]
      · cases hnew
    rw [hp]
  | ok addr =>
    obtain ⟨hs, hid⟩ := NewAddressPubKey_serialize _ _ _ hnew
    have hp : ∃ P, ParsePubKey a.PubKey = .ok P := by
      unfold NewAddressPubKey at hnew
      split at hnew
      · cases hnew
      · rename_i P hP
        exact ⟨P, hP⟩
    obtain ⟨P, hP⟩ := hp
    rw [hP]
    simp only [AddressPubKey.EncodeAddress, hs, hid, encodeAddress_Hash160]

theorem generateP2PKH_btcd (a : Account) :
    a.generateP2PKH btcd =
      .ok { a with
        AddressP2PKH := base58CheckEncode (Hash160 a.PubKey) a.params.PubKeyHashAddrID } := by
  simp only [Account.generateP2PKH, btcd, NewAddressPubKeyHash]
  rw [if_neg (by rw [Hash160_length]; decide)]
  simp only [AddressPubKeyHash.EncodeAddress, encodeAddress_Hash160]

theorem generateP2WPKH_btcd (a : Account) :
    a.generateP2WPKH btcd =
      .ok { a with
        AddressP2WPKH := AddressSegWit.EncodeAddress
          ⟨goToLower a.params.Bech32HRPSegwit, 0, Hash160 a.PubKey⟩ } := by
  simp only [Account.generateP2WPKH, btcd, NewAddressWitnessPubKeyHash]
  rw [if_neg (by rw [Hash160_length]; decide)]

theorem generateP2TR_btcd (a : Account) :
    a.generateP2TR btcd =
      match ParsePubKey a.PubKey with
      | .error e => .err a e
      | .ok P =>
        .ok { a with
          AddressP2TR := AddressSegWit.EncodeAddress
            ⟨goToLower a.params.Bech32HRPSegwit, 1, beBytes 32 (taprootOutputKey P).x⟩ } := by
  simp only [Account.generateP2TR, btcd]
  cases hP : ParsePubKey a.PubKey with
  | error e => rfl
  | ok P =>
    obtain ⟨hx, hy, hc⟩ := ParsePubKey_sound _ _ hP
    simp only [ComputeTaprootKeyNoScript_eq P hx hy hc]
    rw [if_neg (by rw [SerializeCompressed_length]; decide)]
    simp only [SerializeCompressed_drop, NewAddressTaproot]
    rw [if_neg (by rw [beBytes_length]; decide)]

theorem generateEth_btcd (a : Account) :
    a.generateEth btcd =
      match ParsePubKey a.PubKey with
      | .error e => .err a e
      | .ok P =>
        .ok { a with
          AddressEth := "0x" ++ hexEncode ((legacyKeccak256 P.SerializeUncompressed).drop 12) } := by
  simp only [Account.generateEth, btcd]
  cases hP : ParsePubKey a.PubKey with
  | error e => rfl
  | ok P =>
    simp only []
    rw [if_neg (by rw [legacyKeccak256_length]; decide)]

/-- The model of the packages reproduces the published pay-to-witness-pubkey-hash address of the
generator key on mainnet, the example of BIP-173. -/
theorem generateP2WPKH_generator :
    (NewAccount generatorCompressed MainNetParams).generateP2WPKH btcd
      = .ok { NewAccount generatorCompressed MainNetParams with
                AddressP2WPKH := "bc1qw508d6qejxtdg4y5r3zarvary0c5xw7kv8f3t4" } := by
  decide!

/-- The whole of `GenerateAddresses` over the modelled packages: it fails in the first step when
the key does not parse, and otherwise sets the five fields. -/
theorem GenerateAddresses_btcd (a : Account) :
    a.GenerateAddresses btcd =
      match ParsePubKey a.PubKey with
      | .error e => .err a ("failed to generate P2PK address: " ++ e)
      | .ok P =>
        .ok { a with
          AddressP2PK := base58CheckEncode (Hash160 a.PubKey) a.params.PubKeyHashAddrID
          AddressP2PKH := base58CheckEncode (Hash160 a.PubKey) a.params.PubKeyHashAddrID
          AddressP2WPKH := AddressSegWit.EncodeAddress
            ⟨goToLower a.params.Bech32HRPSegwit, 0, Hash160 a.PubKey⟩
          AddressP2TR := AddressSegWit.EncodeAddress
            ⟨goToLower a.params.Bech32HRPSegwit, 1, beBytes 32 (taprootOutputKey P).x⟩
          AddressEth := "0x" ++ hexEncode ((legacyKeccak256 P.SerializeUncompressed).drop 12) } := by
  unfold Account.GenerateAddresses
  rw [generateP2PK_btcd]
  cases hP : ParsePubKey a.PubKey with
  | error e => rfl
  | ok P =>
    simp only [generateP2PKH_btcd, generateP2WPKH_btcd, generateP2TR_btcd, generateEth_btcd, hP]

/-- Claim C1: `GenerateAddresses` runs the derivations P2PK, P2PKH, P2WPKH, P2TR, Ethereum in
this order; it returns no error when all five succeed, and otherwise the error
"failed to generate KIND address: " followed by the cause of the first failing derivation,
without running a later one.  With the imported packages as modelled the call always
returns. -/
theorem GenerateAddresses_runs_in_order :
    (∀ (L : Lib) (a : Account), a.GenerateAddresses L = runInSequence (derivations L) a) ∧
    (∀ (L : Lib) (a a1 a2 a3 a4 a5 : Account), a.generateP2PK L = .ok a1 →
      a1.generateP2PKH L = .ok a2 → a2.generateP2WPKH L = .ok a3 →
      a3.generateP2TR L = .ok a4 → a4.generateEth L = .ok a5 →
      a.GenerateAddresses L = .ok a5) ∧
    (∀ a : Account, a.GenerateAddresses btcd ≠ .crash) := by
  refine ⟨GenerateAddresses_eq_runInSequence, ?_, ?_⟩
  · intro L a a1 a2 a3 a4 a5 h1 h2 h3 h4 h5
    simp only [Account.GenerateAddresses, h1, h2, h3, h4, h5]
  · intro a h
    rw [GenerateAddresses_btcd] at h
    split at h <;> cases h

/-- Claim C2: `GenerateAddresses` is not atomic.  When a derivation is the first to fail, the
call returns with the fields of the earlier derivations holding the values those derivations
wrote, and with the fields of the failing and the later derivations, `PubKey` and `params` as
they were before the call. -/
theorem GenerateAddresses_non_atomic (L : Lib) (a : Account) :
    (∀ b cause, a.generateP2PK L = .err b cause →
      a.GenerateAddresses L = .err a ("failed to generate P2PK address: " ++ cause)) ∧
    (∀ a1 b cause, a.generateP2PK L = .ok a1 → a1.generateP2PKH L = .err b cause →
      a.GenerateAddresses L
        = .err { a with AddressP2PK := a1.AddressP2PK }
            ("failed to generate P2PKH address: " ++ cause)) ∧
    (∀ a1 a2 b cause, a.generateP2PK L = .ok a1 → a1.generateP2PKH L = .ok a2 →
      a2.generateP2WPKH L = .err b cause →
      a.GenerateAddresses L
        = .err { a with AddressP2PK := a1.AddressP2PK, AddressP2PKH := a2.AddressP2PKH }
            ("failed to generate P2WPKH address: " ++ cause)) ∧
    (∀ a1 a2 a3 b cause, a.generateP2PK L = .ok a1 → a1.generateP2PKH L = .ok a2 →
      a2.generateP2WPKH L = .ok a3 → a3.generateP2TR L = .err b cause →
      a.GenerateAddresses L
        = .err { a with AddressP2PK := a1.AddressP2PK, AddressP2PKH := a2.AddressP2PKH,
                        AddressP2WPKH := a3.AddressP2WPKH }
            ("failed to generate P2TR address: " ++ cause)) ∧
    (∀ a1 a2 a3 a4 b cause, a.generateP2PK L = .ok a1 → a1.generateP2PKH L = .ok a2 →
      a2.generateP2WPKH L = .ok a3 → a3.generateP2TR L = .ok a4 →
      a4.generateEth L = .err b cause →
      a.GenerateAddresses L
        = .err { a with AddressP2PK := a1.AddressP2PK, AddressP2PKH := a2.AddressP2PKH,
                        AddressP2WPKH := a3.AddressP2WPKH, AddressP2TR := a4.AddressP2TR }
            ("failed to generate Ethereum address: " ++ cause)) := by
  refine ⟨?_, ?_, ?_, ?_, ?_⟩
  · intro b cause h1
    have hb := generateP2PK_err L a b cause h1
    subst hb
    simp only [Account.GenerateAddresses, h1]
  · intro a1 b cause h1 h2
    have e1 := generateP2PK_ok L a a1 h1
    have hb := generateP2PKH_err L a1 b cause h2
    subst hb
    simp only [Account.GenerateAddresses, h1, h2]
    rw [e1]
  · intro a1 a2 b cause h1 h2 h3
    have e1 := generateP2PK_ok L a a1 h1
    have e2 := generateP2PKH_ok L a1 a2 h2
    have hb := generateP2WPKH_err L a2 b cause h3
    subst hb
    simp only [Account.GenerateAddresses, h1, h2, h3]
    rw [e2, e1]
  · intro a1 a2 a3 b cause h1 h2 h3 h4
    have e1 := generateP2PK_ok L a a1 h1
    have e2 := generateP2PKH_ok L a1 a2 h2
    have e3 := generateP2WPKH_ok L a2 a3 h3
    have hb := generateP2TR_err L a3 b cause h4
    subst hb
    simp only [Account.GenerateAddresses, h1, h2, h3, h4]
    rw [e3, e2, e1]
  · intro a1 a2 a3 a4 b cause h1 h2 h3 h4 h5
    have e1 := generateP2PK_ok L a a1 h1
    have e2 := generateP2PKH_ok L a1 a2 h2
    have e3 := generateP2WPKH_ok L a2 a3 h3
    have e4 := generateP2TR_ok L a3 a4 h4
    have hb := generateEth_err L a4 b cause h5
    subst hb
    simp only [Account.GenerateAddresses, h1, h2, h3, h4, h5]
    rw [e4, e3, e2, e1]

/-- Witness for claim C2, at two inputs.  With the packages as modelled and a ten-byte key the
first derivation fails and nothing is written.  With a library whose taproot constructor
rejects, the fourth derivation fails on the generator key and the first three addresses stay in
the account. -/
theorem GenerateAddresses_non_atomic_witness :
    (NewAccount tenBytes MainNetParams).GenerateAddresses btcd
      = .err (NewAccount tenBytes MainNetParams)
          ("failed to generate P2PK address: " ++ "malformed public key: invalid length: 10") ∧
    (NewAccount generatorCompressed MainNetParams).GenerateAddresses rejectingTaproot
      = .err { NewAccount generatorCompressed MainNetParams with
                AddressP2PK := "1BgGZ9tcN4rm9KBzDn7KprQz87SZ26SAMH",
                AddressP2PKH := "1BgGZ9tcN4rm9KBzDn7KprQz87SZ26SAMH",
                AddressP2WPKH := "bc1qw508d6qejxtdg4y5r3zarvary0c5xw7kv8f3t4" }
          ("failed to generate P2TR address: " ++ "witness program must be 32 bytes for p2tr") :=
  ⟨(GenerateAddresses_non_atomic btcd (NewAccount tenBytes MainNetParams)).1
      (NewAccount tenBytes MainNetParams) "malformed public key: invalid length: 10"
      (by decide!),
   (GenerateAddresses_non_atomic rejectingTaproot
      (NewAccount generatorCompressed MainNetParams)).2.2.2.1
      { NewAccount generatorCompressed MainNetParams with
          AddressP2PK := "1BgGZ9tcN4rm9KBzDn7KprQz87SZ26SAMH" }
      { NewAccount generatorCompressed MainNetParams with
          AddressP2PK := "1BgGZ9tcN4rm9KBzDn7KprQz87SZ26SAMH",
          AddressP2PKH := "1BgGZ9tcN4rm9KBzDn7KprQz87SZ26SAMH" }
      { NewAccount generatorCompressed MainNetParams with
          AddressP2PK := "1BgGZ9tcN4rm9KBzDn7KprQz87SZ26SAMH",
          AddressP2PKH := "1BgGZ9tcN4rm9KBzDn7KprQz87SZ26SAMH",
          AddressP2WPKH := "bc1qw508d6qejxtdg4y5r3zarvary0c5xw7kv8f3t4" }
      { NewAccount generatorCompressed MainNetParams with
          AddressP2PK := "1BgGZ9tcN4rm9KBzDn7KprQz87SZ26SAMH",
          AddressP2PKH := "1BgGZ9tcN4rm9KBzDn7KprQz87SZ26SAMH",
          AddressP2WPKH := "bc1qw508d6qejxtdg4y5r3zarvary0c5xw7kv8f3t4" }
      "witness program must be 32 bytes for p2tr"
      (by decide!) (by decide!) (by decide!) (by decide!)⟩

/-- Claim C3: on a fresh account with a ten-byte public key, under any network parameters,
`GenerateAddresses` returns an error that begins with "failed to generate P2PK address:" and
leaves the five address fields empty. -/
theorem GenerateAddresses_ten_byte_key (pubKey : List Byte) (params : Params)
    (hlen : pubKey.length = 10) :
    ∃ b : Account,
      (NewAccount pubKey params).GenerateAddresses btcd
        = .err b ("failed to generate P2PK address: " ++
            "malformed public key: invalid length: 10") ∧
      b.AddressP2PK = "" ∧ b.AddressP2PKH = "" ∧ b.AddressP2WPKH = "" ∧ b.AddressP2TR = "" ∧
      b.AddressEth = "" := by
  refine ⟨NewAccount pubKey params, ?_, rfl, rfl, rfl, rfl, rfl⟩
  rw [GenerateAddresses_btcd]
  have hp : ParsePubKey (NewAccount pubKey params).PubKey
      = .error ("malformed public key: invalid length: " ++ toString pubKey.length) :=
    ParsePubKey_invalid_length pubKey (by rw [hlen]; decide) (by rw [hlen]; decide)
  rw [hp, hlen]
  rfl

/-- Witness for claim C3: a key of ten bytes on mainnet. -/
theorem GenerateAddresses_ten_byte_key_witness :
    tenBytes.length = 10 ∧
    ∃ b : Account,
      (NewAccount tenBytes MainNetParams).GenerateAddresses btcd
        = .err b ("failed to generate P2PK address: " ++
            "malformed public key: invalid length: 10") ∧
      b.AddressP2PK = "" ∧ b.AddressP2PKH = "" ∧ b.AddressP2WPKH = "" ∧ b.AddressP2TR = "" ∧
      b.AddressEth = "" :=
  ⟨by decide, GenerateAddresses_ten_byte_key tenBytes MainNetParams (by decide)⟩

/-- Claim C4: when the key is neither 33 nor 65 bytes long, `generateP2TR` and `generateEth`
return the parser's invalid-length error and leave the account as it was, while `generateP2PKH`
and `generateP2WPKH` succeed and store the encodings of the hash160 of the raw bytes. -/
theorem derivations_on_invalid_length (a : Account) (h33 : a.PubKey.length ≠ 33)
    (h65 : a.PubKey.length ≠ 65) :
    a.generateP2TR btcd
      = .err a ("malformed public key: invalid length: " ++ toString a.PubKey.length) ∧
    a.generateEth btcd
      = .err a ("malformed public key: invalid length: " ++ toString a.PubKey.length) ∧
    a.generateP2PKH btcd
      = .ok { a with
          AddressP2PKH := base58CheckEncode (ripemd160 (sha256 a.PubKey))
            a.params.PubKeyHashAddrID } ∧
    a.generateP2WPKH btcd
      = .ok { a with
          AddressP2WPKH := AddressSegWit.EncodeAddress
            ⟨goToLower a.params.Bech32HRPSegwit, 0, ripemd160 (sha256 a.PubKey)⟩ } := by
  have hp := ParsePubKey_invalid_length a.PubKey h33 h65
  refine ⟨?_, ?_, ?_, ?_⟩
  · rw [generateP2TR_btcd, hp]
  · rw [generateEth_btcd, hp]
  · rw [generateP2PKH_btcd]; rfl
  · rw [generateP2WPKH_btcd]; rfl

/-- Witness for claim C4: the ten-byte key on mainnet. -/
theorem derivations_on_invalid_length_witness :
    (NewAccount tenBytes MainNetParams).PubKey.length ≠ 33 ∧
    (NewAccount tenBytes MainNetParams).PubKey.length ≠ 65 ∧
    (NewAccount tenBytes MainNetParams).generateP2TR btcd
      = .err (NewAccount tenBytes MainNetParams)
          ("malformed public key: invalid length: " ++
            toString (NewAccount tenBytes MainNetParams).PubKey.length) :=
  ⟨by decide, by decide,
    (derivations_on_invalid_length (NewAccount tenBytes MainNetParams)
      (by decide) (by decide)).1⟩

/-- Claim C5: for a point of the curve, `generateEth` succeeds on the compressed and on the
uncompressed encoding and stores the same text: the address depends on the point only. -/
theorem generateEth_encoding_invariant (x y : Nat) (a a' : Account) (hx : x < fieldPrime)
    (hy : y < fieldPrime) (hc : isOnCurve x y = true)
    (ha : a.PubKey = PublicKey.SerializeCompressed ⟨x, y⟩)
    (ha' : a'.PubKey = PublicKey.SerializeUncompressed ⟨x, y⟩) :
    ∃ s : String,
      a.generateEth btcd = .ok { a with AddressEth := s } ∧
      a'.generateEth btcd = .ok { a' with AddressEth := s } := by
  refine ⟨"0x" ++ hexEncode
    ((legacyKeccak256 (PublicKey.SerializeUncompressed ⟨x, y⟩)).drop 12), ?_, ?_⟩
  · rw [generateEth_btcd, ha, ParsePubKey_SerializeCompressed x y hx hy hc]
  · rw [generateEth_btcd, ha', ParsePubKey_SerializeUncompressed x y hx hy hc]

/-- Witness for claim C5: the generator point in both encodings. -/
theorem generateEth_encoding_invariant_witness :
    generator.1 < fieldPrime ∧ generator.2 < fieldPrime ∧
    isOnCurve generator.1 generator.2 = true ∧
    ∃ s : String,
      (NewAccount generatorCompressed MainNetParams).generateEth btcd
        = .ok { NewAccount generatorCompressed MainNetParams with AddressEth := s } ∧
      (NewAccount generatorUncompressed MainNetParams).generateEth btcd
        = .ok { NewAccount generatorUncompressed MainNetParams with AddressEth := s } :=
  ⟨by decide, by decide, by decide!,
    generateEth_encoding_invariant generator.1 generator.2
      (NewAccount generatorCompressed MainNetParams)
      (NewAccount generatorUncompressed MainNetParams)
      (by decide) (by decide) (by decide!) (by decide!) (by decide!)⟩

/-- Claim C6, evaluated on the compressed generator key: `generateEth` hashes the 65 bytes of
the uncompressed serialisation, format byte `0x04` included, and stores
`0x7d6e99bb8abf8cc013bb0e912d0b176596fe7b88`.  The address the claim names,
`0x7e5f4552091a69125d5dfcb7b8c2659029395bdf`, is the one obtained from the 64 bytes `X || Y`
that follow the format byte. -/
theorem generateEth_generator :
    (NewAccount generatorCompressed MainNetParams).generateEth btcd
      = .ok { NewAccount generatorCompressed MainNetParams with
                AddressEth := "0x7d6e99bb8abf8cc013bb0e912d0b176596fe7b88" } ∧
    (NewAccount generatorCompressed MainNetParams).generateEth btcd
      ≠ .ok { NewAccount generatorCompressed MainNetParams with
                AddressEth := "0x7e5f4552091a69125d5dfcb7b8c2659029395bdf" } ∧
    "0x" ++ hexEncode ((legacyKeccak256
        ((PublicKey.SerializeUncompressed ⟨generator.1, generator.2⟩).drop 1)).drop 12)
      = "0x7e5f4552091a69125d5dfcb7b8c2659029395bdf" := by
  refine ⟨by decide!, by decide!, by decide!⟩

/-- Claim C7: `generateP2PKH` never returns an error; it stores the base58check text of the
network's pay-to-pubkey-hash version byte followed by the twenty bytes RIPEMD-160(SHA-256) of
the raw key, closed by the first four bytes of their double SHA-256.  On the compressed
generator key and mainnet the text is `1BgGZ9tcN4rm9KBzDn7KprQz87SZ26SAMH`. -/
theorem generateP2PKH_spec :
    (∀ a : Account,
      (ripemd160 (sha256 a.PubKey)).length = 20 ∧
      a.generateP2PKH btcd
        = .ok { a with
            AddressP2PKH := base58Encode
              ((a.params.PubKeyHashAddrID :: ripemd160 (sha256 a.PubKey)) ++
                (sha256 (sha256
                  (a.params.PubKeyHashAddrID :: ripemd160 (sha256 a.PubKey)))).take 4) }) ∧
    (NewAccount generatorCompressed MainNetParams).generateP2PKH btcd
      = .ok { NewAccount generatorCompressed MainNetParams with
                AddressP2PKH := "1BgGZ9tcN4rm9KBzDn7KprQz87SZ26SAMH" } := by
  refine ⟨fun a => ⟨Hash160_length a.PubKey, ?_⟩, by decide!⟩
  rw [generateP2PKH_btcd]
  rfl

/-- Claim C8: when the key parses to a point, `generateP2TR` computes the BIP-341
key-path-only output key, passes to the taproot constructor the compressed serialisation
without its first byte, which is the 32-byte x-only form of that key, and stores the segwit
version 1 encoding of this program under the network's prefix.  When the key does not parse,
it returns the parser's error and leaves the account as it was. -/
theorem generateP2TR_spec (a : Account) :
    (∀ P : PublicKey, ParsePubKey a.PubKey = .ok P →
      ComputeTaprootKeyNoScript P = some (taprootOutputKey P) ∧
      (taprootOutputKey P).SerializeCompressed.length = 33 ∧
      (taprootOutputKey P).SerializeCompressed.drop 1 = beBytes 32 (taprootOutputKey P).x ∧
      ((taprootOutputKey P).SerializeCompressed.drop 1).length = 32 ∧
      a.generateP2TR btcd
        = .ok { a with
            AddressP2TR := AddressSegWit.EncodeAddress
              ⟨goToLower a.params.Bech32HRPSegwit, 1,
                (taprootOutputKey P).SerializeCompressed.drop 1⟩ }) ∧
    (∀ e : String, ParsePubKey a.PubKey = .error e → a.generateP2TR btcd = .err a e) := by
  constructor
  · intro P hP
    obtain ⟨hx, hy, hc⟩ := ParsePubKey_sound _ _ hP
    refine ⟨ComputeTaprootKeyNoScript_eq P hx hy hc, SerializeCompressed_length _,
      SerializeCompressed_drop _, ?_, ?_⟩
    · rw [SerializeCompressed_drop, beBytes_length]
    · rw [generateP2TR_btcd, hP]
      rfl
  · intro e he
    rw [generateP2TR_btcd, he]

/-- Witness for claim C8: the compressed generator key on mainnet, and the ten-byte key. -/
theorem generateP2TR_spec_witness :
    (NewAccount generatorCompressed MainNetParams).generateP2TR btcd
      = .ok { NewAccount generatorCompressed MainNetParams with
          AddressP2TR := AddressSegWit.EncodeAddress
            ⟨goToLower MainNetParams.Bech32HRPSegwit, 1,
              (taprootOutputKey ⟨generator.1, generator.2⟩).SerializeCompressed.drop 1⟩ } ∧
    (NewAccount tenBytes MainNetParams).generateP2TR btcd
      = .err (NewAccount tenBytes MainNetParams) "malformed public key: invalid length: 10" :=
  ⟨((generateP2TR_spec (NewAccount generatorCompressed MainNetParams)).1
      ⟨generator.1, generator.2⟩ (by decide!)).2.2.2.2,
   (generateP2TR_spec (NewAccount tenBytes MainNetParams)).2
      "malformed public key: invalid length: 10" (by decide!)⟩

/-- Claim C9: `generateP2PKH` and `generateP2WPKH` hand the same value to their address
constructors, the hash160 of the raw key bytes, which is twenty bytes long: it is the payload of
the base58check text and the witness program of the segwit version 0 text. -/
theorem p2pkh_p2wpkh_same_hash :
    (∀ (L : Lib) (a : Account),
      a.generateP2PKH L
        = (match L.NewAddressPubKeyHash (L.Hash160 a.PubKey) a.params with
            | .error err => .err a err
            | .ok address => .ok { a with AddressP2PKH := L.EncodeAddressPubKeyHash address }) ∧
      a.generateP2WPKH L
        = (match L.NewAddressWitnessPubKeyHash (L.Hash160 a.PubKey) a.params with
            | .error err => .err a err
            | .ok address =>
              .ok { a with AddressP2WPKH := L.EncodeAddressWitnessPubKeyHash address })) ∧
    (∀ a : Account, ∃ h : List Byte,
      h = ripemd160 (sha256 a.PubKey) ∧ h.length = 20 ∧
      a.generateP2PKH btcd
        = .ok { a with AddressP2PKH := base58CheckEncode h a.params.PubKeyHashAddrID } ∧
      a.generateP2WPKH btcd
        = .ok { a with
            AddressP2WPKH := AddressSegWit.EncodeAddress
              ⟨goToLower a.params.Bech32HRPSegwit, 0, h⟩ }) := by
  refine ⟨fun L a => ⟨rfl, rfl⟩, fun a => ⟨Hash160 a.PubKey, rfl, Hash160_length _, ?_, ?_⟩⟩
  · rw [generateP2PKH_btcd]
  · rw [generateP2WPKH_btcd]

/-- Claim C10: for a key that parses, `GenerateAddresses` succeeds and the P2PK field equals
the P2PKH field: the pay-to-pubkey address renders as the base58check pubkey-hash text of the
key re-serialised in its own format, which is the text of the P2PKH step. -/
theorem p2pk_equals_p2pkh (a : Account) (P : PublicKey) (h : ParsePubKey a.PubKey = .ok P) :
    ∃ b : Account,
      a.GenerateAddresses btcd = .ok b ∧
      b.AddressP2PK = b.AddressP2PKH ∧
      b.AddressP2PKH
        = base58CheckEncode (ripemd160 (sha256 a.PubKey)) a.params.PubKeyHashAddrID := by
  rw [GenerateAddresses_btcd, h]
  exact ⟨_, rfl, rfl, rfl⟩

/-- Witness for claim C10: the compressed generator key on mainnet. -/
theorem p2pk_equals_p2pkh_witness :
    ParsePubKey (NewAccount generatorCompressed MainNetParams).PubKey
      = .ok ⟨generator.1, generator.2⟩ ∧
    ∃ b : Account,
      (NewAccount generatorCompressed MainNetParams).GenerateAddresses btcd = .ok b ∧
      b.AddressP2PK = b.AddressP2PKH ∧
      b.AddressP2PKH
        = base58CheckEncode
            (ripemd160 (sha256 (NewAccount generatorCompressed MainNetParams).PubKey))
            (NewAccount generatorCompressed MainNetParams).params.PubKeyHashAddrID :=
  ⟨by decide!,
    p2pk_equals_p2pkh (NewAccount generatorCompressed MainNetParams)
      ⟨generator.1, generator.2⟩ (by decide!)⟩

end Interop
